import Mathlib

/-!
# Jumping Jack: a verification development

A shallow embedding of `JumpingJack.c` (a curses side-scroller) and proofs
about its track model, scroll engine, player controller and session loop.

Conventions of the embedding:

* the linked list `road` is a `List Tile`; a `Tile*` is the index of a node in
  that list, and an index that is not below the length of the list is the null
  pointer (the `next` field of node `i` is node `i + 1`, null for the last node);
* `unsigned int` variables are naturals, with `% 4294967296` where the code can
  wrap around (`score++`);
* `int` variables (`x`, `y`, `air_time`) are integers; the code moves them by one at a
  time and never near the ends of the range of `int`;
* `char` values are characters;
* `rand()` and `malloc` are oracles: the value returned by `rand()` and the
  success of each `malloc` call are parameters;
* calls to curses (`move`, `addch`, `refresh`) only paint the screen and are
  left out;
* `getchar` is an oracle too: the prompt and `readInput` run on the characters it
  returns;
* each function is embedded as sequential code: the state it starts from is the
  state of the globals at that moment, whatever the other thread did before, and the
  other thread does not write while it runs. The states in which a jump sleeps are
  listed by `movePlayerSteps`, so that a tick during a jump can be stated.
-/

namespace JumpingJack

/-! ## Constants -/

/-- Height of the game window (`#define SCREEN_HEIGHT 10`). -/
def SCREEN_HEIGHT : Int := 10

/-- Width of the game window (`#define SCREEN_WIDTH 50`). -/
def SCREEN_WIDTH : Nat := 50

/-- Glyph of an obstacle tile (`#define OBSTACLE '|'`). -/
def OBSTACLE : Char := '|'

/-- Glyph of a road tile (`#define ROAD '_'`). -/
def ROAD : Char := '_'

/-! ## Data model -/

/-- Screen position in Cartesian coordinates (`typedef struct { int x; int y; } Position`). -/
structure Position where
  x : Int
  y : Int
  deriving DecidableEq, Repr

/-- One node of the road; the `next` pointer is the order of the list that holds it. -/
structure Tile where
  type : Char
  position : Position
  deriving DecidableEq, Repr

/-- The global variables of the program. -/
structure Game where
  game_over : Nat
  game_won : Nat
  error : Nat
  quit : Nat
  road : List Tile
  player : Position
  game_speed : Nat
  score : Nat
  score_for_win : Nat
  input : Char
  air_time : Int
  deriving DecidableEq, Repr

/-- The globals as the C runtime sets them up before `main` runs: everything zero
except `game_speed = 250000`. -/
def initialGame : Game :=
  { game_over := 0, game_won := 0, error := 0, quit := 0, road := [],
    player := { x := 0, y := 0 }, game_speed := 250000, score := 0, score_for_win := 0,
    input := Char.ofNat 0, air_time := 0 }

/-! ## initRoad -/

/-- The `for` loop of `initRoad`, from loop counter `i` with `n` iterations left.
`mallocOk k` tells whether the `malloc` call of iteration `k` succeeds; each new tile
is linked behind the last one (`road_tmp->next = new_tile`). -/
def initRoadLoop (mallocOk : Nat → Bool) : Nat → Nat → Game → Game
  | 0, _, s => s
  | n + 1, i, s =>
    if mallocOk i then
      let new_tile : Tile :=
        { type := ROAD, position := { x := (i : Int), y := SCREEN_HEIGHT - 3 } }
      initRoadLoop mallocOk n (i + 1) { s with road := s.road ++ [new_tile] }
    else
      { s with error := 1 }

/-- Embedding of `initRoad`: allocates the head tile at column 0 and then
`SCREEN_WIDTH` further tiles. `headOk` is the success of the first `malloc`. -/
def initRoad (headOk : Bool) (mallocOk : Nat → Bool) (s : Game) : Game :=
  if headOk then
    let head : Tile := { type := ROAD, position := { x := 0, y := SCREEN_HEIGHT - 3 } }
    initRoadLoop mallocOk SCREEN_WIDTH 0 { s with road := [head] }
  else
    { s with road := [], error := 1 }

/-! ## moveTiles -/

/-- The `while (active_tile)` loop of `moveTiles`. `active_tile` and `previous_tile`
are node indices, `rnd` is the value `rand()` returns if it is called, and the first
argument bounds the number of iterations (`moveTiles` passes the length of the road,
which is never exhausted: see `moveTilesLoop_fuel`). -/
def moveTilesLoop : Nat → Game → Nat → Nat → Nat → Game
  | 0, s, _, _, _ => s
  | fuel + 1, s, rnd, active_tile, previous_tile =>
    match s.road[active_tile]? with
    | none => s
    | some a =>
      match s.road[active_tile + 1]? with
      | some following =>
        let a1 : Tile := { a with type := following.type }
        let s1 : Game := { s with road := s.road.set active_tile a1 }
        if a1.type = OBSTACLE ∧ a1.position.x = s1.player.x ∧ a1.position.y = s1.player.y then
          { s1 with game_over := 1 }
        else
          moveTilesLoop fuel s1 rnd (active_tile + 1) (active_tile + 1)
      | none =>
        match s.road[previous_tile]? with
        | none => s
        | some p =>
          let newType : Char :=
            if p.type ≠ OBSTACLE then
              let random_number := rnd % 10
              if random_number < 2 then OBSTACLE else ROAD
            else ROAD
          let s1 : Game := { s with road := s.road.set active_tile { a with type := newType } }
          let s2 : Game := { s1 with score := (s1.score + 1) % 4294967296 }
          if s2.score = s2.score_for_win then { s2 with game_won := 1 } else s2

/-- Embedding of `moveTiles`: one scroll step of the road, starting with both
cursors on the head of the list. -/
def moveTiles (s : Game) (rnd : Nat) : Game :=
  moveTilesLoop s.road.length s rnd 0 0

/-! ## movePlayer -/

/-- The loop `for (air_time = 3; air_time > 0; air_time--) usleep(game_speed);` after
its initialisation. The first component lists the states in which the thread sleeps
(one per `usleep` call, in order), the second is the state when the loop condition
fails. The first argument bounds the number of iterations; `movePlayerSteps` passes 3,
the value `air_time` starts from. -/
def jumpLoop : Nat → Game → List Game × Game
  | 0, s => ([], s)
  | fuel + 1, s =>
    if s.air_time > 0 then
      let r := jumpLoop fuel { s with air_time := s.air_time - 1 }
      (s :: r.1, r.2)
    else
      ([], s)

/-- Embedding of `movePlayer`, reading the global `input`. The first component lists
the states held while the call sleeps during a jump (the other thread can observe
them), the second is the state on return. -/
def movePlayerSteps (s : Game) : List Game × Game :=
  let s1 : Game :=
    if s.input = 'a' ∧ s.player.x > 0 then
      { s with player := { s.player with x := s.player.x - 1 } }
    else s
  let s2 : Game :=
    if s1.input = 'd' ∧ s1.player.x < (SCREEN_WIDTH : Int) then
      { s1 with player := { s1.player with x := s1.player.x + 1 } }
    else s1
  let j : List Game × Game :=
    if s2.input = 'w' ∨ s2.input = ' ' then
      let up : Game := { s2 with player := { s2.player with y := s2.player.y - 1 }, air_time := 3 }
      let r := jumpLoop 3 { up with air_time := 3 }
      (r.1, { r.2 with player := { r.2.player with y := r.2.player.y + 1 }, air_time := 0 })
    else ([], s2)
  let s4 : Game := if j.2.input = 'q' then { j.2 with quit := 1 } else j.2
  (j.1, s4)

/-- State in which `movePlayer` returns. -/
def movePlayer (s : Game) : Game :=
  (movePlayerSteps s).2

/-- All states the program passes through when the characters `cs` are stored in
`input` one after the other and `movePlayer` is called after each, as `readInput` does:
the state before each call, the states held during a jump, and the final state. -/
def applyInputs : Game → List Char → List Game
  | s, [] => [s]
  | s, c :: cs =>
    let m := movePlayerSteps { s with input := c }
    s :: (m.1 ++ applyInputs m.2 cs)

/-! ## main -/

/-- Start column of the player: `player.x = SCREEN_WIDTH * 0.3`, the product 15.0
converted to `int`, which is 15. -/
def PLAYER_START_X : Int := 15

/-- The two assignments of `main` that place the player before the game starts. -/
def placePlayer (s : Game) : Game :=
  { s with player := { x := PLAYER_START_X, y := SCREEN_HEIGHT - 3 } }

/-- The simulation loop of `main`,
`while (!quit && !error && !game_over && !game_won) { moveTiles(); ... }`,
run on the values `rand()` would return in the successive ticks; it stops when the
condition fails or when the list of values is used up. -/
def mainLoop : Game → List Nat → Game
  | s, [] => s
  | s, rnd :: rnds =>
    if s.quit = 0 ∧ s.error = 0 ∧ s.game_over = 0 ∧ s.game_won = 0 then
      mainLoop (moveTiles s rnd) rnds
    else s

/-! ## Auxiliary definitions for the proofs -/

/-- Type of the tile with index `i`, if there is one. -/
def typeAt (road : List Tile) (i : Nat) : Option Char :=
  (road[i]?).map Tile.type

/-- Position of the tile with index `i`, if there is one. -/
def positionAt (road : List Tile) (i : Nat) : Option Position :=
  (road[i]?).map Tile.position

/-- The tile the tail branch of `moveTiles` writes, for a tail tile `t` (which is also
what `previous_tile` points to when the branch runs). -/
def tailTile (rnd : Nat) (t : Tile) : Tile :=
  { t with type := if t.type ≠ OBSTACLE then (if rnd % 10 < 2 then OBSTACLE else ROAD) else ROAD }

/-- List view of the loop of `moveTiles` on the part of the road from the cursor on:
the rewritten tiles and whether the loop ended in the collision branch. It is related
to the loop by `moveTilesLoop_eq` and only used in proofs. -/
def scroll (p : Position) (rnd : Nat) : List Tile → List Tile × Bool
  | [] => ([], false)
  | t :: tl =>
    match tl with
    | [] => ([tailTile rnd t], false)
    | f :: _ =>
      if f.type = OBSTACLE ∧ t.position.x = p.x ∧ t.position.y = p.y then
        ({ t with type := f.type } :: tl, true)
      else
        let r := scroll p rnd tl
        ({ t with type := f.type } :: r.1, r.2)

/-- The globals after the loop of `moveTiles`, given the rewritten road, whether a
collision ended the loop and whether the tail branch ran. -/
def finish (s : Game) (road : List Tile) (collided reachedTail : Bool) : Game :=
  if collided then { s with road := road, game_over := 1 }
  else if reachedTail then
    { s with road := road, score := (s.score + 1) % 4294967296,
             game_won := if (s.score + 1) % 4294967296 = s.score_for_win then 1 else s.game_won }
  else { s with road := road }

/-- Whether some tile that has a successor sits at position `p` while the successor
has type `OBSTACLE`. -/
def obstacleArrives (p : Position) : List Tile → Bool
  | [] => false
  | t :: tl =>
    match tl with
    | [] => false
    | f :: _ =>
      (decide (f.type = OBSTACLE ∧ t.position.x = p.x ∧ t.position.y = p.y)) || obstacleArrives p tl

/-- The tile iteration `j` of the loop of `initRoad` creates. -/
def roadTile (j : Nat) : Tile :=
  { type := ROAD, position := { x := (j : Int), y := SCREEN_HEIGHT - 3 } }

/-! ## Concrete states -/

/-- The road with the type of tile `i` replaced by `c` (unchanged if there is no tile `i`). -/
def setType (road : List Tile) (i : Nat) (c : Char) : List Tile :=
  match road[i]? with
  | some t => road.set i { t with type := c }
  | none => road

/-- The state in which the simulation loop of `main` starts after the player chose
Easy and every allocation succeeded. -/
def easyStart : Game :=
  initRoad true (fun _ => true)
    { placePlayer initialGame with game_speed := 300000, score_for_win := 100 }

/-- The start state with an obstacle in tile 16, the tile at the player's position. -/
def obstacleUnderPlayer : Game :=
  { easyStart with road := setType easyStart.road 16 OBSTACLE }

/-- The start state with an obstacle in tile 49, the tile before the tail. -/
def obstacleBeforeTail : Game :=
  { easyStart with road := setType easyStart.road 49 OBSTACLE }

/-- The start state with an obstacle in the tail tile. -/
def obstacleInTail : Game :=
  { easyStart with road := setType easyStart.road 50 OBSTACLE }

/-- The start state with an obstacle in tile 17, the tile after the one at the
player's position. -/
def obstacleAhead : Game :=
  { easyStart with road := setType easyStart.road 17 OBSTACLE }

/-- As `obstacleAhead`, one point short of the Easy win threshold. -/
def obstacleAheadAt99 : Game :=
  { obstacleAhead with score := 99 }

/-- The start state one point short of the Easy win threshold, with the player moved
to the column of the tail tile. -/
def playerAtTailAt99 : Game :=
  { easyStart with score := 99, player := { x := 49, y := SCREEN_HEIGHT - 3 } }

/-- A state with a road of three tiles and win threshold 3, for short runs of the
simulation loop. -/
def shortGame : Game :=
  { initialGame with
    road := [{ type := ROAD, position := { x := 0, y := 7 } },
             { type := ROAD, position := { x := 0, y := 7 } },
             { type := ROAD, position := { x := 1, y := 7 } }],
    player := { x := 1, y := 7 }, score_for_win := 3 }

/-- The state held during the second sleep of a jump started from the player's start
position with the space key. -/
def midJump : Game :=
  { placePlayer initialGame with
    input := ' ', player := { x := PLAYER_START_X, y := SCREEN_HEIGHT - 4 }, air_time := 2 }

/-- A state with the player at the left border and `'a'` as pending input. -/
def atLeftBorder : Game :=
  { easyStart with input := 'a', player := { x := 0, y := SCREEN_HEIGHT - 3 } }

/-! ## The difficulty prompt -/

/-- Embedding of the prompt loop of `drawInstructionGameScreen`,
`while ((c = getchar())) switch (c) ...`, run on the characters `getchar` returns.
The result is `none` when the characters are used up before the function returns (it
is then still blocked in `getchar`). -/
def drawInstructionGameScreen : Game → List Char → Option Game
  | _, [] => none
  | s, c :: cs =>
    if c = Char.ofNat 0 then some s
    else if c = 'e' ∨ c = 'E' then some { s with game_speed := 300000, score_for_win := 100 }
    else if c = 'n' ∨ c = 'N' then some { s with game_speed := 150000, score_for_win := 200 }
    else if c = 'h' ∨ c = 'H' then some { s with game_speed := 75000, score_for_win := 400 }
    else if c = 'q' ∨ c = 'Q' then some { s with quit := 1 }
    else drawInstructionGameScreen s cs

/-- The characters the `switch` of the prompt has a case for. -/
def promptKeys : List Char := ['e', 'E', 'n', 'N', 'h', 'H', 'q', 'Q']

/-! ## Ticks with a moving player -/

/-- A run of calls of `moveTiles`, each with its own value of `rand()` and with the
player at a position of its own (the input thread may move the player between two
ticks). -/
def playTicks : Game → List (Position × Nat) → Game
  | s, [] => s
  | s, (p, rnd) :: rest => playTicks (moveTiles { s with player := p } rnd) rest

/-! ## readInput -/

/-- Embedding of the loop of `readInput`,
`while ((input = getchar()) && !(quit || error || game_over)) { movePlayer(); ...
if (quit || error || game_over || game_won) break; ... }`, run on the characters
`getchar` returns. The result is the state of the globals and whether `readInput` has
returned (`false`: the characters are used up and the thread is blocked in
`getchar`). -/
def readInput : Game → List Char → Game × Bool
  | s, [] => (s, false)
  | s, c :: cs =>
    let s0 : Game := { s with input := c }
    if c ≠ Char.ofNat 0 ∧ ¬ (s0.quit ≠ 0 ∨ s0.error ≠ 0 ∨ s0.game_over ≠ 0) then
      let s1 : Game := movePlayer s0
      if s1.quit ≠ 0 ∨ s1.error ≠ 0 ∨ s1.game_over ≠ 0 ∨ s1.game_won ≠ 0 then (s1, true)
      else readInput s1 cs
    else (s0, true)

/-- The globals when `initRoad` is called in an Easy game. -/
def easySetup : Game :=
  { placePlayer initialGame with game_speed := 300000, score_for_win := 100 }

/-- A held state of a jump at column 48, one tick after an obstacle was created in the
tail tile: the next tick shifts the obstacle into tile 49, the tile at column 48. -/
def jumpOverObstacle : Game :=
  { playTicks (initRoad true (fun _ => true) easySetup) [({ x := 15, y := 7 }, 0)] with
    player := { x := 48, y := SCREEN_HEIGHT - 3 - 1 }, input := ' ', air_time := 2 }

/-- A state in which a jump key is pending, with the player away from the start
position and some score on the board. -/
def beforeJump : Game :=
  { easyStart with input := 'w', player := { x := 20, y := 7 }, score := 42 }

/-- A state in which the quit key is pending during a running game. -/
def beforeQuit : Game :=
  { easyStart with input := 'q', score := 42 }

/-- An Easy game one point short of the win threshold, no flag set. -/
def almostWon : Game :=
  { easyStart with score := 99 }

/-- No two neighbouring tiles of the road are both obstacles. -/
def noAdjacentObstacles (road : List Tile) : Prop :=
  ∀ i, ¬ (typeAt road i = some OBSTACLE ∧ typeAt road (i + 1) = some OBSTACLE)

/-- The start state after three collision-free ticks of which the first and the third
create an obstacle; the player has stepped left and right in between. -/
def threeTicks : Game :=
  playTicks (initRoad true (fun _ => true) easySetup)
    [({ x := 15, y := 7 }, 0), ({ x := 14, y := 7 }, 0), ({ x := 16, y := 7 }, 1)]

/-- The start track with an obstacle in every tile and the player in the last column
that holds a tile. -/
def allObstacles : Game :=
  { easyStart with
    road := easyStart.road.map (fun t => { t with type := OBSTACLE }),
    player := { x := 49, y := SCREEN_HEIGHT - 3 } }

end JumpingJack

namespace JumpingJack

/-! ## The loop of moveTiles as a list traversal -/

theorem getElem?_append_cursor (pre : List Tile) (t : Tile) (tl : List Tile) :
    (pre ++ t :: tl)[pre.length]? = some t := by
  rw [List.getElem?_append_right (Nat.le_refl _)]
  simp

theorem getElem?_append_cursor_succ (pre : List Tile) (t : Tile) (tl : List Tile) :
    (pre ++ t :: tl)[pre.length + 1]? = tl[0]? := by
  rw [List.getElem?_append_right (Nat.le_succ _)]
  simp

theorem finish_road_irrel (s : Game) (l road : List Tile) (c t : Bool) :
    finish { s with road := l } road c t = finish s road c t := by
  unfold finish
  rfl

/-- With the road split at the cursor into `pre ++ suf` and at least as many iterations
allowed as there are tiles from the cursor on, the loop rewrites `suf` as `scroll`
does and updates the globals as `finish` says. -/
theorem moveTilesLoop_eq (rnd : Nat) (suf : List Tile) :
    ∀ (pre : List Tile) (s : Game) (fuel : Nat), s.road = pre ++ suf → suf.length ≤ fuel →
      moveTilesLoop fuel s rnd pre.length pre.length =
        finish s (pre ++ (scroll s.player rnd suf).1) (scroll s.player rnd suf).2
          (decide (suf ≠ [])) := by
  induction suf with
  | nil =>
    intro pre s fuel hroad _
    have hnone : s.road[pre.length]? = none := by simp [hroad]
    cases fuel with
    | zero => simp [moveTilesLoop, scroll, finish, ← hroad]
    | succ k => simp [moveTilesLoop, hnone, scroll, finish, ← hroad]
  | cons t tl ih =>
    intro pre s fuel hroad hfuel
    obtain ⟨k, rfl⟩ : ∃ k, fuel = k + 1 := ⟨fuel - 1, by simp at hfuel; omega⟩
    have hact : s.road[pre.length]? = some t := by
      rw [hroad, getElem?_append_cursor]
    cases tl with
    | nil =>
      have hnext : s.road[pre.length + 1]? = none := by
        rw [hroad, getElem?_append_cursor_succ]; simp
      have hset : ∀ x : Tile, s.road.set pre.length x = pre ++ [x] := by
        intro x; simp [hroad]
      simp only [moveTilesLoop, hact, hnext, hset, scroll, finish, tailTile]
      by_cases hw : (s.score + 1) % 4294967296 = s.score_for_win <;> simp [hw]
    | cons f rest =>
      have hnext : s.road[pre.length + 1]? = some f := by
        rw [hroad, getElem?_append_cursor_succ]; simp
      have hset : ∀ x : Tile, s.road.set pre.length x = (pre ++ [x]) ++ f :: rest := by
        intro x; simp [hroad]
      by_cases hhit : f.type = OBSTACLE ∧ t.position.x = s.player.x ∧ t.position.y = s.player.y
      · simp [moveTilesLoop, hact, hnext, hset, scroll, finish, hhit]
      · have hrec := ih (pre ++ [{ t with type := f.type }])
          { s with road := (pre ++ [{ t with type := f.type }]) ++ f :: rest } k rfl
          (by simpa using hfuel)
        simp only [List.length_append, List.length_singleton] at hrec
        simp only [moveTilesLoop, hact, hnext, hset, hhit, if_false]
        rw [hrec, finish_road_irrel]
        simp [scroll, hhit]

/-- What one call of `moveTiles` does, in terms of the list traversal. -/
theorem moveTiles_eq (s : Game) (rnd : Nat) :
    moveTiles s rnd =
      finish s (scroll s.player rnd s.road).1 (scroll s.player rnd s.road).2
        (decide (s.road ≠ [])) := by
  have h := moveTilesLoop_eq rnd s.road [] s s.road.length (by simp) (Nat.le_refl _)
  simpa [moveTiles] using h

/-- The iteration bound of `moveTiles` is never the reason the loop stops: any bound
from the length of the road on gives the same final state. -/
theorem moveTilesLoop_fuel (s : Game) (rnd fuel : Nat) (h : s.road.length ≤ fuel) :
    moveTilesLoop fuel s rnd 0 0 = moveTiles s rnd := by
  have h1 := moveTilesLoop_eq rnd s.road [] s fuel (by simp) h
  rw [moveTiles_eq]
  simpa using h1

/-! ## Properties of the list traversal -/

theorem scroll_length (p : Position) (rnd : Nat) (l : List Tile) :
    (scroll p rnd l).1.length = l.length := by
  induction l with
  | nil => simp [scroll]
  | cons t tl ih =>
    cases tl with
    | nil => simp [scroll]
    | cons f rest =>
      by_cases hhit : f.type = OBSTACLE ∧ t.position.x = p.x ∧ t.position.y = p.y
      · simp [scroll, hhit]
      · simpa [scroll, hhit] using ih

theorem scroll_positions (p : Position) (rnd : Nat) (l : List Tile) :
    (scroll p rnd l).1.map Tile.position = l.map Tile.position := by
  induction l with
  | nil => simp [scroll]
  | cons t tl ih =>
    cases tl with
    | nil => simp [scroll, tailTile]
    | cons f rest =>
      by_cases hhit : f.type = OBSTACLE ∧ t.position.x = p.x ∧ t.position.y = p.y
      · simp [scroll, hhit]
      · simpa [scroll, hhit] using ih

theorem scroll_collided (p : Position) (rnd : Nat) (l : List Tile) :
    (scroll p rnd l).2 = obstacleArrives p l := by
  induction l with
  | nil => simp [scroll, obstacleArrives]
  | cons t tl ih =>
    cases tl with
    | nil => simp [scroll, obstacleArrives]
    | cons f rest =>
      by_cases hhit : f.type = OBSTACLE ∧ t.position.x = p.x ∧ t.position.y = p.y
      · simp [scroll, obstacleArrives, hhit]
      · simpa [scroll, obstacleArrives, hhit] using ih

/-- The flag `obstacleArrives` holds exactly when some tile `k` with a successor is at
`p` and the successor is an obstacle. -/
theorem obstacleArrives_iff (p : Position) (l : List Tile) :
    obstacleArrives p l = true ↔
      ∃ k t f, l[k]? = some t ∧ l[k + 1]? = some f ∧
        f.type = OBSTACLE ∧ t.position.x = p.x ∧ t.position.y = p.y := by
  induction l with
  | nil => simp [obstacleArrives]
  | cons t tl ih =>
    cases tl with
    | nil =>
      simp only [obstacleArrives, Bool.false_eq_true, false_iff]
      rintro ⟨k, a, f, _, hf, _⟩
      simp at hf
    | cons f rest =>
      simp only [obstacleArrives, Bool.or_eq_true, decide_eq_true_eq]
      constructor
      · rintro (h | h)
        · exact ⟨0, t, f, by simp, by simp, h⟩
        · obtain ⟨k, a, b, ha, hb, hrest⟩ := ih.mp h
          exact ⟨k + 1, a, b, by simpa using ha, by simpa using hb, hrest⟩
      · rintro ⟨k, a, b, ha, hb, hrest⟩
        cases k with
        | zero =>
          simp at ha hb
          subst ha hb
          exact Or.inl hrest
        | succ j =>
          exact Or.inr (ih.mpr ⟨j, a, b, by simpa using ha, by simpa using hb, hrest⟩)

/-- Without a collision every tile that has a successor ends with the type its
successor had. -/
theorem scroll_types (p : Position) (rnd : Nat) (l : List Tile)
    (h : (scroll p rnd l).2 = false) (i : Nat) (hi : i + 1 < l.length) :
    typeAt (scroll p rnd l).1 i = typeAt l (i + 1) := by
  induction l generalizing i with
  | nil => simp at hi
  | cons t tl ih =>
    cases tl with
    | nil => simp at hi
    | cons f rest =>
      by_cases hhit : f.type = OBSTACLE ∧ t.position.x = p.x ∧ t.position.y = p.y
      · simp [scroll, hhit] at h
      · have h2 : (scroll p rnd (f :: rest)).2 = false := by simpa [scroll, hhit] using h
        cases i with
        | zero => simp [scroll, hhit, typeAt]
        | succ j =>
          have := ih h2 j (by simpa using hi)
          simpa [scroll, hhit, typeAt] using this

/-- Without a collision the last tile ends as `tailTile` of what it was. -/
theorem scroll_tail (p : Position) (rnd : Nat) (l : List Tile)
    (h : (scroll p rnd l).2 = false) (i : Nat) (hi : i + 1 = l.length) :
    (scroll p rnd l).1[i]? = (l[i]?).map (tailTile rnd) := by
  induction l generalizing i with
  | nil => simp at hi
  | cons t tl ih =>
    cases tl with
    | nil =>
      have : i = 0 := by simpa using hi
      subst this
      simp [scroll]
    | cons f rest =>
      by_cases hhit : f.type = OBSTACLE ∧ t.position.x = p.x ∧ t.position.y = p.y
      · simp [scroll, hhit] at h
      · have h2 : (scroll p rnd (f :: rest)).2 = false := by simpa [scroll, hhit] using h
        cases i with
        | zero => simp at hi
        | succ j =>
          have := ih h2 j (by simpa using hi)
          simpa [scroll, hhit] using this

/-! ## Effect of moveTiles on the globals -/

theorem moveTiles_road (s : Game) (rnd : Nat) :
    (moveTiles s rnd).road = (scroll s.player rnd s.road).1 := by
  rw [moveTiles_eq]
  unfold finish
  split
  · rfl
  · split <;> rfl

theorem moveTiles_game_over (s : Game) (rnd : Nat) :
    (moveTiles s rnd).game_over = if obstacleArrives s.player s.road then 1 else s.game_over := by
  rw [moveTiles_eq, scroll_collided]
  unfold finish
  split
  · rfl
  · split <;> rfl

theorem moveTiles_score (s : Game) (rnd : Nat) :
    (moveTiles s rnd).score =
      if obstacleArrives s.player s.road = false ∧ s.road ≠ [] then (s.score + 1) % 4294967296
      else s.score := by
  rw [moveTiles_eq, scroll_collided]
  unfold finish
  by_cases hc : obstacleArrives s.player s.road = true
  · simp [hc]
  · by_cases hr : s.road = []
    · simp [hr, obstacleArrives]
    · simp [hc, hr]

theorem moveTiles_game_won (s : Game) (rnd : Nat) :
    (moveTiles s rnd).game_won =
      if obstacleArrives s.player s.road = false ∧ s.road ≠ [] ∧
          (s.score + 1) % 4294967296 = s.score_for_win then 1
      else s.game_won := by
  rw [moveTiles_eq, scroll_collided]
  unfold finish
  by_cases hc : obstacleArrives s.player s.road = true
  · simp [hc]
  · by_cases hr : s.road = []
    · simp [hr, obstacleArrives]
    · by_cases hw : (s.score + 1) % 4294967296 = s.score_for_win <;> simp [hc, hr, hw]

/-- The fields `moveTiles` never writes. -/
theorem moveTiles_frame (s : Game) (rnd : Nat) :
    (moveTiles s rnd).player = s.player ∧ (moveTiles s rnd).quit = s.quit ∧
    (moveTiles s rnd).error = s.error ∧ (moveTiles s rnd).score_for_win = s.score_for_win ∧
    (moveTiles s rnd).game_speed = s.game_speed ∧ (moveTiles s rnd).input = s.input ∧
    (moveTiles s rnd).air_time = s.air_time := by
  rw [moveTiles_eq]
  unfold finish
  split
  · simp
  · split <;> simp

/-- From a state with `game_over` clear, the call leaves it clear exactly when no
obstacle arrives under the player. -/
theorem moveTiles_no_collision (s : Game) (rnd : Nat) (h0 : s.game_over = 0) :
    (moveTiles s rnd).game_over = 0 ↔ obstacleArrives s.player s.road = false := by
  rw [moveTiles_game_over]
  by_cases hc : obstacleArrives s.player s.road = true <;> simp [hc, h0]

/-! ## Scroll step: claims C1 to C5 -/

/-- C1. Scroll correctness of `moveTiles`: on a road of `width + 1` tiles, for every
player position and every value of `rand()`, if the call does not end in a collision
(`game_over` clear before the call and clear after it), then for every `i < width`
tile `i` has after the call the type tile `i + 1` had before the call. -/
theorem moveTiles_scroll_correct (s : Game) (rnd width : Nat)
    (hlen : s.road.length = width + 1) (h0 : s.game_over = 0)
    (hno : (moveTiles s rnd).game_over = 0) (i : Nat) (hi : i < width) :
    ∃ c, typeAt s.road (i + 1) = some c ∧ typeAt (moveTiles s rnd).road i = some c := by
  have hnc : (scroll s.player rnd s.road).2 = false := by
    rw [scroll_collided]
    exact (moveTiles_no_collision s rnd h0).mp hno
  have hlt : i + 1 < s.road.length := by omega
  have hty := scroll_types s.player rnd s.road hnc i hlt
  refine ⟨(s.road[i + 1]).type, ?_, ?_⟩
  · simp [typeAt, List.getElem?_eq_getElem hlt]
  · rw [moveTiles_road, hty]
    simp [typeAt, List.getElem?_eq_getElem hlt]

/-- Witness of C1: the obstacle of tile 16 of `obstacleUnderPlayer` is in tile 15 after
the call. -/
theorem moveTiles_scroll_correct_witness :
    obstacleUnderPlayer.road.length = 50 + 1 ∧ obstacleUnderPlayer.game_over = 0 ∧
    (moveTiles obstacleUnderPlayer 7).game_over = 0 ∧
    ∃ c, typeAt obstacleUnderPlayer.road (15 + 1) = some c ∧
      typeAt (moveTiles obstacleUnderPlayer 7).road 15 = some c :=
  ⟨by decide, by decide, by decide,
    moveTiles_scroll_correct obstacleUnderPlayer 7 50 (by decide) (by decide) (by decide) 15
      (by decide)⟩

/-- Counterexample to C2 as stated: in `obstacleBeforeTail` the tile before the tail is
an obstacle before the shift, the call reaches the tail (no collision), and with
`rand()` returning 0 the new tail tile is an obstacle. -/
theorem tail_after_obstacle_counterexample :
    typeAt obstacleBeforeTail.road 49 = some OBSTACLE ∧
    obstacleBeforeTail.road.length = 50 + 1 ∧
    obstacleBeforeTail.game_over = 0 ∧
    (moveTiles obstacleBeforeTail 0).game_over = 0 ∧
    typeAt (moveTiles obstacleBeforeTail 0).road 50 = some OBSTACLE := by
  decide

/-- C2, amended. On a road of `width + 1` tiles whose tail tile is an obstacle before
the call, a call that reaches the tail (no collision) writes `ROAD` into the tail tile
whatever `rand()` returns, while the tile before the tail, if there is one, receives
the obstacle: the new tail never follows an obstacle with an obstacle. -/
theorem moveTiles_tail_after_obstacle (s : Game) (rnd width : Nat)
    (hlen : s.road.length = width + 1) (htail : typeAt s.road width = some OBSTACLE)
    (h0 : s.game_over = 0) (hno : (moveTiles s rnd).game_over = 0) :
    typeAt (moveTiles s rnd).road width = some ROAD ∧
    (0 < width → typeAt (moveTiles s rnd).road (width - 1) = some OBSTACLE) := by
  have hnc : (scroll s.player rnd s.road).2 = false := by
    rw [scroll_collided]
    exact (moveTiles_no_collision s rnd h0).mp hno
  have hlt : width < s.road.length := by omega
  have hold : (s.road[width]).type = OBSTACLE := by
    simpa [typeAt, List.getElem?_eq_getElem hlt] using htail
  constructor
  · have ht := scroll_tail s.player rnd s.road hnc width hlen.symm
    rw [moveTiles_road]
    simp [typeAt, ht, List.getElem?_eq_getElem hlt, tailTile, hold]
  · intro hpos
    have hty := scroll_types s.player rnd s.road hnc (width - 1) (by omega)
    rw [moveTiles_road, hty]
    have : width - 1 + 1 = width := by omega
    rw [this]
    exact htail

/-- Witness of C2, amended, on `obstacleInTail` with `rand()` returning 0. -/
theorem moveTiles_tail_after_obstacle_witness :
    obstacleInTail.road.length = 50 + 1 ∧ typeAt obstacleInTail.road 50 = some OBSTACLE ∧
    obstacleInTail.game_over = 0 ∧ (moveTiles obstacleInTail 0).game_over = 0 ∧
    typeAt (moveTiles obstacleInTail 0).road 50 = some ROAD ∧
    (0 < 50 → typeAt (moveTiles obstacleInTail 0).road (50 - 1) = some OBSTACLE) :=
  ⟨by decide, by decide, by decide, by decide,
    moveTiles_tail_after_obstacle obstacleInTail 0 50 (by decide) (by decide) (by decide)
      (by decide)⟩

/-- Counterexample to C3 as stated: in `obstacleUnderPlayer` the player is on the road
row with `air_time = 0`, the only tile at the player's column and row (tile 16) is an
obstacle, and the call leaves `game_over` clear: the obstacle moves on to tile 15. -/
theorem collision_counterexample :
    obstacleUnderPlayer.air_time = 0 ∧
    obstacleUnderPlayer.player = { x := 15, y := SCREEN_HEIGHT - 3 } ∧
    positionAt obstacleUnderPlayer.road 16 = some obstacleUnderPlayer.player ∧
    typeAt obstacleUnderPlayer.road 16 = some OBSTACLE ∧
    obstacleUnderPlayer.game_over = 0 ∧
    (moveTiles obstacleUnderPlayer 7).game_over = 0 ∧
    typeAt (moveTiles obstacleUnderPlayer 7).road 15 = some OBSTACLE := by
  decide

/-- C3, amended. If a tile `k` at the player's exact column and row has a successor
that is an obstacle before the call (so tile `k` holds an obstacle once it is shifted),
with `air_time = 0`, the call sets `game_over`, whatever `rand()` returns. -/
theorem moveTiles_collision (s : Game) (rnd k : Nat) (t f : Tile)
    (ht : s.road[k]? = some t) (hf : s.road[k + 1]? = some f)
    (hobs : f.type = OBSTACLE) (hx : t.position.x = s.player.x)
    (hy : t.position.y = s.player.y) (_hair : s.air_time = 0) :
    (moveTiles s rnd).game_over = 1 := by
  have harr : obstacleArrives s.player s.road = true :=
    (obstacleArrives_iff s.player s.road).mpr ⟨k, t, f, ht, hf, hobs, hx, hy⟩
  rw [moveTiles_game_over, harr]
  rfl

/-- Witness of C3, amended, on `obstacleAhead`: tile 16 is under the player and tile 17
is an obstacle. -/
theorem moveTiles_collision_witness :
    obstacleAhead.road[16]? = some { type := ROAD, position := { x := 15, y := 7 } } ∧
    obstacleAhead.road[16 + 1]? = some { type := OBSTACLE, position := { x := 16, y := 7 } } ∧
    obstacleAhead.player = { x := 15, y := 7 } ∧ obstacleAhead.air_time = 0 ∧
    (moveTiles obstacleAhead 7).game_over = 1 :=
  ⟨by decide, by decide, by decide, by decide,
    moveTiles_collision obstacleAhead 7 16 { type := ROAD, position := { x := 15, y := 7 } }
      { type := OBSTACLE, position := { x := 16, y := 7 } } (by decide) (by decide) (by decide)
      (by decide) (by decide) (by decide)⟩

/-- Counterexample to C4 as stated: in `obstacleAheadAt99` the score is one below the
threshold 100 and an obstacle is shifted under the player; the call sets `game_over`,
does not set `game_won` and leaves the score at 99. -/
theorem win_without_check_counterexample :
    obstacleAheadAt99.score = obstacleAheadAt99.score_for_win - 1 ∧
    obstacleAheadAt99.game_over = 0 ∧ obstacleAheadAt99.game_won = 0 ∧
    (moveTiles obstacleAheadAt99 7).game_over = 1 ∧
    (moveTiles obstacleAheadAt99 7).game_won = 0 ∧
    (moveTiles obstacleAheadAt99 7).score = 99 := by
  decide

/-- C4, amended. If `score` is `score_for_win - 1` (as `unsigned int`) before the call
and no tile that has a successor receives an obstacle at the player's position, the
call ends with `game_won` set, `game_over` as it was and `score = score_for_win`; the
tail tile is not checked, so this holds also when the new tail tile is an obstacle at
the player's position. -/
theorem moveTiles_win (s : Game) (rnd : Nat) (hne : s.road ≠ [])
    (hwin : s.score_for_win < 4294967296)
    (hscore : s.score = (s.score_for_win + 4294967295) % 4294967296)
    (hno : ∀ k t f, s.road[k]? = some t → s.road[k + 1]? = some f →
      ¬ (f.type = OBSTACLE ∧ t.position.x = s.player.x ∧ t.position.y = s.player.y)) :
    (moveTiles s rnd).game_won = 1 ∧ (moveTiles s rnd).game_over = s.game_over ∧
    (moveTiles s rnd).score = s.score_for_win := by
  have harr : obstacleArrives s.player s.road = false := by
    rw [Bool.eq_false_iff]
    intro h
    obtain ⟨k, t, f, ht, hf, hrest⟩ := (obstacleArrives_iff s.player s.road).mp h
    exact hno k t f ht hf hrest
  have hsc : (s.score + 1) % 4294967296 = s.score_for_win := by omega
  refine ⟨?_, ?_, ?_⟩
  · rw [moveTiles_game_won]; simp [harr, hne, hsc]
  · rw [moveTiles_game_over]; simp [harr]
  · rw [moveTiles_score]; simp [harr, hne, hsc]

/-- Witness of C4, amended, on `playerAtTailAt99` with `rand()` returning 0: the new
tail tile is an obstacle at the player's position and the game is won, not lost. -/
theorem moveTiles_win_witness :
    playerAtTailAt99.road ≠ [] ∧ playerAtTailAt99.score_for_win < 4294967296 ∧
    playerAtTailAt99.score = (playerAtTailAt99.score_for_win + 4294967295) % 4294967296 ∧
    typeAt (moveTiles playerAtTailAt99 0).road 50 = some OBSTACLE ∧
    positionAt (moveTiles playerAtTailAt99 0).road 50 = some playerAtTailAt99.player ∧
    ((moveTiles playerAtTailAt99 0).game_won = 1 ∧
      (moveTiles playerAtTailAt99 0).game_over = playerAtTailAt99.game_over ∧
      (moveTiles playerAtTailAt99 0).score = playerAtTailAt99.score_for_win) :=
  ⟨by decide, by decide, by decide, by decide, by decide,
    moveTiles_win playerAtTailAt99 0 (by decide) (by decide) (by decide)
      (fun k t f ht hf h =>
        absurd ((obstacleArrives_iff playerAtTailAt99.player playerAtTailAt99.road).mpr
          ⟨k, t, f, ht, hf, h⟩) (by decide))⟩

/-- C5. Score step: a call of `moveTiles` that reaches the tail (the road is not
empty and the call does not end in a collision) increases `score` by exactly 1 in
`unsigned int` arithmetic, sets `game_won` if the new score equals `score_for_win`,
and leaves `game_won` as it was for every other value of the new score. -/
theorem moveTiles_score_step (s : Game) (rnd : Nat) (hne : s.road ≠ [])
    (h0 : s.game_over = 0) (hno : (moveTiles s rnd).game_over = 0) :
    (moveTiles s rnd).score = (s.score + 1) % 4294967296 ∧
    ((moveTiles s rnd).score = s.score_for_win → (moveTiles s rnd).game_won = 1) ∧
    ((moveTiles s rnd).score ≠ s.score_for_win → (moveTiles s rnd).game_won = s.game_won) := by
  have harr : obstacleArrives s.player s.road = false :=
    (moveTiles_no_collision s rnd h0).mp hno
  have hsc : (moveTiles s rnd).score = (s.score + 1) % 4294967296 := by
    rw [moveTiles_score]; simp [harr, hne]
  refine ⟨hsc, ?_, ?_⟩
  · intro h
    rw [hsc] at h
    rw [moveTiles_game_won]; simp [harr, hne, h]
  · intro h
    rw [hsc] at h
    rw [moveTiles_game_won]; simp [harr, hne, h]

/-- Witness of C5: the first tick of an Easy game takes the score from 0 to 1 and does
not set `game_won`. -/
theorem moveTiles_score_step_witness :
    easyStart.road ≠ [] ∧ easyStart.game_over = 0 ∧ (moveTiles easyStart 3).game_over = 0 ∧
    ((moveTiles easyStart 3).score = (easyStart.score + 1) % 4294967296 ∧
      ((moveTiles easyStart 3).score = easyStart.score_for_win →
        (moveTiles easyStart 3).game_won = 1) ∧
      ((moveTiles easyStart 3).score ≠ easyStart.score_for_win →
        (moveTiles easyStart 3).game_won = easyStart.game_won)) :=
  ⟨by decide, by decide, by decide,
    moveTiles_score_step easyStart 3 (by decide) (by decide) (by decide)⟩

/-! ## The simulation loop: claim C6 -/

theorem mainLoop_stop (s : Game) (rnds : List Nat)
    (h : ¬ (s.quit = 0 ∧ s.error = 0 ∧ s.game_over = 0 ∧ s.game_won = 0)) :
    mainLoop s rnds = s := by
  cases rnds with
  | nil => rfl
  | cons r rs => simp only [mainLoop, h, if_false]

theorem mainLoop_append (s : Game) (a b : List Nat) :
    mainLoop s (a ++ b) = mainLoop (mainLoop s a) b := by
  induction a generalizing s with
  | nil => rfl
  | cons r rs ih =>
    by_cases h : s.quit = 0 ∧ s.error = 0 ∧ s.game_over = 0 ∧ s.game_won = 0
    · simp only [List.cons_append, mainLoop, h, if_true]
      exact ih _
    · simp only [List.cons_append, mainLoop, h, if_false]
      exact (mainLoop_stop s b h).symm

theorem mainLoop_take_succ (s : Game) (rnds : List Nat) (k : Nat) (hk : k < rnds.length)
    (h : (mainLoop s (rnds.take k)).quit = 0 ∧ (mainLoop s (rnds.take k)).error = 0 ∧
      (mainLoop s (rnds.take k)).game_over = 0 ∧ (mainLoop s (rnds.take k)).game_won = 0) :
    mainLoop s (rnds.take (k + 1)) = moveTiles (mainLoop s (rnds.take k)) rnds[k] := by
  rw [List.take_succ, mainLoop_append, List.getElem?_eq_getElem hk]
  simp only [Option.toList, mainLoop, h, and_self, if_true]

theorem moveTiles_road_ne_nil (s : Game) (rnd : Nat) (h : s.road ≠ []) :
    (moveTiles s rnd).road ≠ [] := by
  intro h0
  have hl := scroll_length s.player rnd s.road
  rw [← moveTiles_road, h0] at hl
  exact h (List.length_eq_zero.mp hl.symm)

/-- While no tick ends in a collision, after `k ≤ N` ticks from score 0 the score is `k`
and `game_won` is set exactly if `k = N`. -/
theorem mainLoop_progress (s : Game) (N : Nat) (rnds : List Nat)
    (hscore : s.score = 0) (hthr : s.score_for_win = N) (hN : N < 4294967296)
    (hq : s.quit = 0) (he : s.error = 0) (hw : s.game_won = 0) (hne : s.road ≠ [])
    (hlen : N ≤ rnds.length)
    (hno : ∀ k, k ≤ N → (mainLoop s (rnds.take k)).game_over = 0) (hN1 : 1 ≤ N) :
    ∀ k, k ≤ N →
      (mainLoop s (rnds.take k)).score = k ∧
      (mainLoop s (rnds.take k)).score_for_win = N ∧
      (mainLoop s (rnds.take k)).quit = 0 ∧
      (mainLoop s (rnds.take k)).error = 0 ∧
      (mainLoop s (rnds.take k)).road ≠ [] ∧
      (mainLoop s (rnds.take k)).game_won = if k = N then 1 else 0 := by
  intro k
  induction k with
  | zero =>
    intro _
    have h0 : (0 : Nat) ≠ N := by omega
    simp [mainLoop, hscore, hthr, hq, he, hw, hne, h0]
  | succ k ih =>
    intro hk
    obtain ⟨isc, ithr, iq, ie, ine, iw⟩ := ih (by omega)
    have hkN : k ≠ N := by omega
    rw [if_neg hkN] at iw
    have igo := hno k (by omega)
    have hstep := mainLoop_take_succ s rnds k (by omega) ⟨iq, ie, igo, iw⟩
    have hgo := hno (k + 1) hk
    rw [hstep] at hgo
    have harr := (moveTiles_no_collision _ rnds[k] igo).mp hgo
    have hfr := moveTiles_frame (mainLoop s (rnds.take k)) rnds[k]
    have hmod : (k + 1) % 4294967296 = k + 1 := Nat.mod_eq_of_lt (by omega)
    rw [hstep]
    refine ⟨?_, ?_, ?_, ?_, ?_, ?_⟩
    · rw [moveTiles_score]; simp [harr, ine, isc, hmod]
    · rw [hfr.2.2.2.1, ithr]
    · rw [hfr.2.1, iq]
    · rw [hfr.2.2.1, ie]
    · exact moveTiles_road_ne_nil _ _ ine
    · rw [moveTiles_game_won]; simp [harr, ine, isc, ithr, hmod, iw]

/-- C6. Win scenario: from score 0 with threshold `score_for_win = N`, `1 ≤ N`
(`N = 100` for Easy), no other flag set, the simulation loop of `main` run through
ticks none of which ends in a collision has `game_won` clear and `score = k` after every
`k < N` ticks, and after exactly `N` ticks has `game_won` set, `game_over` clear and
`score = N`; the loop then stops: further ticks are not run and the state, so the score,
stays as it is. -/
theorem mainLoop_win (s : Game) (N : Nat) (rnds : List Nat)
    (hscore : s.score = 0) (hthr : s.score_for_win = N) (hN1 : 1 ≤ N) (hN : N < 4294967296)
    (hq : s.quit = 0) (he : s.error = 0) (hw : s.game_won = 0) (hne : s.road ≠ [])
    (hlen : N ≤ rnds.length)
    (hno : ∀ k, k ≤ N → (mainLoop s (rnds.take k)).game_over = 0) :
    (∀ k, k < N →
      (mainLoop s (rnds.take k)).game_won = 0 ∧ (mainLoop s (rnds.take k)).score = k) ∧
    (mainLoop s (rnds.take N)).game_won = 1 ∧
    (mainLoop s (rnds.take N)).game_over = 0 ∧
    (mainLoop s (rnds.take N)).score = N ∧
    (∀ k, N ≤ k → mainLoop s (rnds.take k) = mainLoop s (rnds.take N)) := by
  have hprog := mainLoop_progress s N rnds hscore hthr hN hq he hw hne hlen hno hN1
  refine ⟨?_, ?_, hno N (Nat.le_refl _), (hprog N (Nat.le_refl _)).1, ?_⟩
  · intro k hk
    obtain ⟨isc, _, _, _, _, iw⟩ := hprog k (by omega)
    have hkN : k ≠ N := by omega
    rw [if_neg hkN] at iw
    exact ⟨iw, isc⟩
  · have := (hprog N (Nat.le_refl _)).2.2.2.2.2
    simpa using this
  · intro k hk
    have hwon : (mainLoop s (rnds.take N)).game_won = 1 := by
      have := (hprog N (Nat.le_refl _)).2.2.2.2.2
      simpa using this
    have hsplit : rnds.take k = rnds.take N ++ (rnds.take k).drop N := by
      have h1 : (rnds.take k).take N = rnds.take N := by
        rw [List.take_take, Nat.min_eq_left hk]
      rw [← h1, List.take_append_drop]
    rw [hsplit, mainLoop_append]
    apply mainLoop_stop
    rw [hwon]
    simp

/-- Witness of C6 on `shortGame`, with threshold 3 and five values of `rand()` at
hand: the game is won after exactly three ticks. -/
theorem mainLoop_win_witness :
    (∀ k, k < 3 →
      (mainLoop shortGame ([0, 5, 1, 8, 2].take k)).game_won = 0 ∧
      (mainLoop shortGame ([0, 5, 1, 8, 2].take k)).score = k) ∧
    (mainLoop shortGame ([0, 5, 1, 8, 2].take 3)).game_won = 1 ∧
    (mainLoop shortGame ([0, 5, 1, 8, 2].take 3)).game_over = 0 ∧
    (mainLoop shortGame ([0, 5, 1, 8, 2].take 3)).score = 3 ∧
    (∀ k, 3 ≤ k →
      mainLoop shortGame ([0, 5, 1, 8, 2].take k) = mainLoop shortGame ([0, 5, 1, 8, 2].take 3)) :=
  mainLoop_win shortGame 3 [0, 5, 1, 8, 2] (by decide) (by decide) (by decide) (by decide)
    (by decide) (by decide) (by decide) (by decide) (by decide) (by decide)

/-! ## The track: claims C7 and C8 -/

/-- When every allocation succeeds the loop of `initRoad` appends one road tile per
iteration, at the column given by the loop counter, and writes nothing else. -/
theorem initRoadLoop_road (mallocOk : Nat → Bool) (n : Nat) :
    ∀ (i : Nat) (s : Game), (∀ j, i ≤ j → j < i + n → mallocOk j = true) →
      initRoadLoop mallocOk n i s =
        { s with road := s.road ++ (List.range' i n).map roadTile } := by
  induction n with
  | zero => intro i s _; simp [initRoadLoop]
  | succ n ih =>
    intro i s hall
    have hi : mallocOk i = true := hall i (Nat.le_refl _) (by omega)
    simp only [initRoadLoop, hi, if_true]
    rw [ih (i + 1) _ (fun j h1 h2 => hall j (by omega) (by omega))]
    simp [List.range'_succ, roadTile]

/-- The road `initRoad` builds when every allocation succeeds: the head tile at column
0 followed by tiles at columns 0 to `SCREEN_WIDTH - 1`. -/
theorem initRoad_road (s : Game) (mallocOk : Nat → Bool)
    (hall : ∀ i, i < SCREEN_WIDTH → mallocOk i = true) :
    (initRoad true mallocOk s).road =
      { type := ROAD, position := { x := 0, y := SCREEN_HEIGHT - 3 } } ::
        (List.range' 0 SCREEN_WIDTH).map roadTile := by
  simp only [initRoad, if_true]
  rw [initRoadLoop_road mallocOk SCREEN_WIDTH 0 _ (fun j _ h2 => hall j (by omega))]
  simp

/-- C7. Track shape invariant: `initRoad`, when every allocation succeeds, yields a
road of exactly `SCREEN_WIDTH + 1` tiles, and every call of `moveTiles`, from any state
and so however it ends, keeps the number of tiles and the position of every tile: only
tile types change. -/
theorem track_shape_invariant (s : Game) (mallocOk : Nat → Bool)
    (hall : ∀ i, i < SCREEN_WIDTH → mallocOk i = true) (t : Game) (rnd : Nat) :
    (initRoad true mallocOk s).road.length = SCREEN_WIDTH + 1 ∧
    (moveTiles t rnd).road.length = t.road.length ∧
    (moveTiles t rnd).road.map Tile.position = t.road.map Tile.position := by
  refine ⟨?_, ?_, ?_⟩
  · rw [initRoad_road s mallocOk hall]
    simp
  · rw [moveTiles_road, scroll_length]
  · rw [moveTiles_road, scroll_positions]

/-- Witness of C7: the road built from the initial globals, and a tick of
`obstacleAhead` that ends in a collision. -/
theorem track_shape_invariant_witness :
    (initRoad true (fun _ => true) initialGame).road.length = SCREEN_WIDTH + 1 ∧
    (moveTiles obstacleAhead 4).road.length = obstacleAhead.road.length ∧
    (moveTiles obstacleAhead 4).road.map Tile.position =
      obstacleAhead.road.map Tile.position :=
  track_shape_invariant initialGame (fun _ => true) (fun _ _ => rfl) obstacleAhead 4

/-- Counterexample to C8 as stated: in the road `initRoad` builds, tile 1 is at column
0 like tile 0 (not at column 1), and the last tile, tile 50, is at column 49 (not at
column `SCREEN_WIDTH = 50`). -/
theorem initRoad_columns_counterexample :
    positionAt (initRoad true (fun _ => true) initialGame).road 0 = some { x := 0, y := 7 } ∧
    positionAt (initRoad true (fun _ => true) initialGame).road 1 = some { x := 0, y := 7 } ∧
    positionAt (initRoad true (fun _ => true) initialGame).road 50 = some { x := 49, y := 7 } ∧
    (initRoad true (fun _ => true) initialGame).road.length = 51 := by
  decide

/-- C8, amended. When every allocation succeeds `initRoad` builds `SCREEN_WIDTH + 1`
tiles, all of type `ROAD`, all on the road row `SCREEN_HEIGHT - 3`; tile 0 is at column
0 and tile `i` for `1 ≤ i ≤ SCREEN_WIDTH` is at column `i - 1`, so that the columns are
0, 0, 1, ..., `SCREEN_WIDTH - 1`. -/
theorem initRoad_track (s : Game) (mallocOk : Nat → Bool)
    (hall : ∀ i, i < SCREEN_WIDTH → mallocOk i = true) :
    (initRoad true mallocOk s).road.length = SCREEN_WIDTH + 1 ∧
    ∀ i t, (initRoad true mallocOk s).road[i]? = some t →
      t.type = ROAD ∧ t.position.y = SCREEN_HEIGHT - 3 ∧ t.position.x = ((i - 1 : Nat) : Int) := by
  rw [initRoad_road s mallocOk hall]
  refine ⟨by simp, ?_⟩
  intro i t ht
  cases i with
  | zero =>
    simp at ht
    subst ht
    simp
  | succ j =>
    simp only [List.getElem?_cons_succ, List.getElem?_map] at ht
    have hlt : j < SCREEN_WIDTH := by
      by_contra hcon
      have hnone : (List.range' 0 SCREEN_WIDTH)[j]? = none := by
        apply List.getElem?_eq_none
        simp
        omega
      simp [hnone] at ht
    rw [List.getElem?_range' 0 1 hlt] at ht
    simp at ht
    subst ht
    simp [roadTile]

/-- Witness of C8, amended, on the road built from the initial globals. -/
theorem initRoad_track_witness :
    (initRoad true (fun _ => true) initialGame).road.length = SCREEN_WIDTH + 1 ∧
    ∀ i t, (initRoad true (fun _ => true) initialGame).road[i]? = some t →
      t.type = ROAD ∧ t.position.y = SCREEN_HEIGHT - 3 ∧ t.position.x = ((i - 1 : Nat) : Int) :=
  initRoad_track initialGame (fun _ => true) (fun _ _ => rfl)

/-! ## The player: claims C9 and C10 -/

/-- C9. Horizontal movement clamps: for every player column `x` with
`0 ≤ x ≤ SCREEN_WIDTH`, `movePlayer` with input `'a'` yields column `max (x - 1) 0` and
with input `'d'` yields column `min (x + 1) SCREEN_WIDTH`, the row unchanged; so `'a'` at
column 0 leaves 0 and `'d'` at column `SCREEN_WIDTH` leaves `SCREEN_WIDTH`. -/
theorem movePlayer_horizontal (s : Game) (h0 : 0 ≤ s.player.x)
    (h1 : s.player.x ≤ (SCREEN_WIDTH : Int)) :
    (s.input = 'a' →
      (movePlayer s).player = { x := max (s.player.x - 1) 0, y := s.player.y }) ∧
    (s.input = 'd' →
      (movePlayer s).player = { x := min (s.player.x + 1) SCREEN_WIDTH, y := s.player.y }) := by
  constructor
  · intro ha
    by_cases hx : s.player.x > 0
    · have hmax : max (s.player.x - 1) 0 = s.player.x - 1 := max_eq_left (by omega)
      simp [movePlayer, movePlayerSteps, ha, hx, hmax]
    · have hmax : max (s.player.x - 1) 0 = 0 := max_eq_right (by omega)
      have hzero : s.player.x = 0 := by omega
      simp [movePlayer, movePlayerSteps, ha, hx, hmax]
      rw [← hzero]
  · intro hd
    by_cases hx : s.player.x < (SCREEN_WIDTH : Int)
    · have hmin : min (s.player.x + 1) (SCREEN_WIDTH : Int) = s.player.x + 1 :=
        min_eq_left (by omega)
      simp [movePlayer, movePlayerSteps, hd, hx, hmin]
    · have hmin : min (s.player.x + 1) (SCREEN_WIDTH : Int) = SCREEN_WIDTH :=
        min_eq_right (by omega)
      have hfull : s.player.x = (SCREEN_WIDTH : Int) := by omega
      simp [movePlayer, movePlayerSteps, hd, hx, hmin]
      rw [← hfull]

/-- Witness of C9: `'a'` at column 0 leaves the player at column 0. -/
theorem movePlayer_horizontal_witness :
    0 ≤ atLeftBorder.player.x ∧ atLeftBorder.player.x ≤ (SCREEN_WIDTH : Int) ∧
    atLeftBorder.input = 'a' ∧ (movePlayer atLeftBorder).player = { x := 0, y := 7 } ∧
    ((atLeftBorder.input = 'a' →
      (movePlayer atLeftBorder).player =
        { x := max (atLeftBorder.player.x - 1) 0, y := atLeftBorder.player.y }) ∧
    (atLeftBorder.input = 'd' →
      (movePlayer atLeftBorder).player =
        { x := min (atLeftBorder.player.x + 1) SCREEN_WIDTH, y := atLeftBorder.player.y })) :=
  ⟨by decide, by decide, by decide, by decide,
    movePlayer_horizontal atLeftBorder (by decide) (by decide)⟩

/-- The hold loop of a jump never moves the player: neither the states it sleeps in
nor the state it exits with. -/
theorem jumpLoop_player (fuel : Nat) :
    ∀ s : Game, (jumpLoop fuel s).2.player = s.player ∧
      ∀ t ∈ (jumpLoop fuel s).1, t.player = s.player := by
  induction fuel with
  | zero => intro s; simp [jumpLoop]
  | succ n ih =>
    intro s
    by_cases hair : s.air_time > 0
    · obtain ⟨h2, h1⟩ := ih { s with air_time := s.air_time - 1 }
      simp only [jumpLoop, hair, if_true]
      refine ⟨h2, ?_⟩
      intro t ht
      rcases List.mem_cons.mp ht with rfl | ht
      · rfl
      · exact h1 t ht
    · simp [jumpLoop, hair]

/-- The hold loop started with `air_time = 3` and bound 3 exits because its condition
fails, with `air_time = 0`, after exactly three sleeps. -/
theorem jumpLoop_three (s : Game) (h : s.air_time = 3) :
    (jumpLoop 3 s).2.air_time = 0 ∧ (jumpLoop 3 s).1.length = 3 := by
  simp [jumpLoop, h]

/-- One call of `movePlayer` from a position on the road row between columns 0 and
`SCREEN_WIDTH` returns in such a position, and the states held during a jump have the
same column range, one row higher. -/
theorem movePlayerSteps_bounds (s : Game) (hx0 : 0 ≤ s.player.x)
    (hx1 : s.player.x ≤ (SCREEN_WIDTH : Int)) (hy : s.player.y = SCREEN_HEIGHT - 3) :
    (0 ≤ (movePlayerSteps s).2.player.x ∧ (movePlayerSteps s).2.player.x ≤ (SCREEN_WIDTH : Int) ∧
      (movePlayerSteps s).2.player.y = SCREEN_HEIGHT - 3) ∧
    ∀ t ∈ (movePlayerSteps s).1,
      0 ≤ t.player.x ∧ t.player.x ≤ (SCREEN_WIDTH : Int) ∧ t.player.y = SCREEN_HEIGHT - 4 := by
  by_cases ha : s.input = 'a'
  · by_cases hpos : s.player.x > 0
    · simp [movePlayerSteps, ha, hpos, hy]
      omega
    · simp [movePlayerSteps, ha, hpos, hy]
      omega
  · by_cases hd : s.input = 'd'
    · by_cases hlt : s.player.x < (SCREEN_WIDTH : Int)
      · simp [movePlayerSteps, hd, hlt, hy]
        omega
      · simp [movePlayerSteps, hd, hlt, hy]
        omega
    · by_cases hj : s.input = 'w' ∨ s.input = ' '
      · have hnq : ¬ s.input = 'q' := by
          rcases hj with h | h <;> simp [h]
        simp [movePlayerSteps, jumpLoop, ha, hd, hj, hnq, hy, hx0, hx1]
        omega
      · by_cases hq : s.input = 'q'
        · simp [movePlayerSteps, ha, hd, hj, hq, hy, hx0, hx1]
        · simp [movePlayerSteps, ha, hd, hj, hq, hy, hx0, hx1]

/-- Every state passed through while inputs are applied from a position on the road
row between columns 0 and `SCREEN_WIDTH` has its column in that range and its row on
the road row or one above it. -/
theorem applyInputs_bounds (cs : List Char) :
    ∀ s : Game, 0 ≤ s.player.x → s.player.x ≤ (SCREEN_WIDTH : Int) →
      s.player.y = SCREEN_HEIGHT - 3 →
      ∀ t ∈ applyInputs s cs,
        0 ≤ t.player.x ∧ t.player.x ≤ (SCREEN_WIDTH : Int) ∧
        (t.player.y = SCREEN_HEIGHT - 3 ∨ t.player.y = SCREEN_HEIGHT - 4) := by
  induction cs with
  | nil =>
    intro s hx0 hx1 hy t ht
    have : t = s := by simpa [applyInputs] using ht
    subst this
    exact ⟨hx0, hx1, Or.inl hy⟩
  | cons c cs ih =>
    intro s hx0 hx1 hy t ht
    obtain ⟨⟨r0, r1, ry⟩, hheld⟩ := movePlayerSteps_bounds { s with input := c } hx0 hx1 hy
    simp only [applyInputs, List.mem_cons, List.mem_append] at ht
    rcases ht with rfl | ht | ht
    · exact ⟨hx0, hx1, Or.inl hy⟩
    · obtain ⟨t0, t1, ty⟩ := hheld t ht
      exact ⟨t0, t1, Or.inr ty⟩
    · exact ih _ r0 r1 ry t ht

/-- Counterexample to C10 as stated: 35 inputs `'d'` from the start position take the
player to column 50, which is `SCREEN_WIDTH` and so outside `[0, SCREEN_WIDTH)`. -/
theorem player_column_counterexample :
    (placePlayer initialGame).player = { x := 15, y := 7 } ∧
    ∃ t ∈ applyInputs (placePlayer initialGame) (List.replicate 35 'd'),
      t.player.x = 50 ∧ ¬ (t.player.x < (SCREEN_WIDTH : Int)) := by
  decide

/-- C10, amended. Starting from the initial position (column 15, row
`SCREEN_HEIGHT - 3 = 7`), in every state passed through while any sequence of inputs is
applied by `movePlayer`, the states held during a jump included, the player's column
lies in the closed range `[0, SCREEN_WIDTH]` and the row in `[0, SCREEN_HEIGHT)`. -/
theorem player_bounds (s : Game) (cs : List Char)
    (hstart : s.player = { x := PLAYER_START_X, y := SCREEN_HEIGHT - 3 }) :
    ∀ t ∈ applyInputs s cs,
      0 ≤ t.player.x ∧ t.player.x ≤ (SCREEN_WIDTH : Int) ∧
      0 ≤ t.player.y ∧ t.player.y < SCREEN_HEIGHT := by
  intro t ht
  have hx : s.player.x = 15 := by rw [hstart]; rfl
  have hy : s.player.y = SCREEN_HEIGHT - 3 := by rw [hstart]
  have hw : (SCREEN_WIDTH : Int) = 50 := rfl
  have hh : SCREEN_HEIGHT = 10 := rfl
  obtain ⟨t0, t1, ty⟩ := applyInputs_bounds cs s (by omega) (by omega) hy t ht
  refine ⟨t0, t1, ?_, ?_⟩
  · rcases ty with h | h <;> omega
  · rcases ty with h | h <;> omega

/-- Witness of C10, amended: the state `midJump`, held during a jump from the start
position. -/
theorem player_bounds_witness :
    (placePlayer initialGame).player = { x := PLAYER_START_X, y := SCREEN_HEIGHT - 3 } ∧
    midJump ∈ applyInputs (placePlayer initialGame) [' '] ∧
    (0 ≤ midJump.player.x ∧ midJump.player.x ≤ (SCREEN_WIDTH : Int) ∧
      0 ≤ midJump.player.y ∧ midJump.player.y < SCREEN_HEIGHT) :=
  ⟨rfl, by decide, player_bounds (placePlayer initialGame) [' '] rfl midJump (by decide)⟩

/-! ## Collisions by position -/

theorem positionAt_eq_some (l : List Tile) (k : Nat) (p : Position) :
    positionAt l k = some p ↔ ∃ t, l[k]? = some t ∧ t.position.x = p.x ∧ t.position.y = p.y := by
  unfold positionAt
  constructor
  · intro h
    obtain ⟨t, ht, hp⟩ := Option.map_eq_some'.mp h
    exact ⟨t, ht, by rw [hp], by rw [hp]⟩
  · rintro ⟨t, ht, hx, hy⟩
    rw [ht]
    cases p
    cases t with
    | mk ty pos =>
      cases pos
      simp_all

theorem typeAt_eq_some (l : List Tile) (k : Nat) (c : Char) :
    typeAt l k = some c ↔ ∃ t, l[k]? = some t ∧ t.type = c := by
  unfold typeAt
  exact Option.map_eq_some'

/-- The collision flag in terms of positions and types: some tile at `p` has a
successor that is an obstacle. -/
theorem obstacleArrives_iff_at (p : Position) (l : List Tile) :
    obstacleArrives p l = true ↔
      ∃ k, positionAt l k = some p ∧ typeAt l (k + 1) = some OBSTACLE := by
  rw [obstacleArrives_iff]
  constructor
  · rintro ⟨k, t, f, ht, hf, hobs, hx, hy⟩
    exact ⟨k, (positionAt_eq_some l k p).mpr ⟨t, ht, hx, hy⟩,
      (typeAt_eq_some l (k + 1) OBSTACLE).mpr ⟨f, hf, hobs⟩⟩
  · rintro ⟨k, hp, hty⟩
    obtain ⟨t, ht, hx, hy⟩ := (positionAt_eq_some l k p).mp hp
    obtain ⟨f, hf, hobs⟩ := (typeAt_eq_some l (k + 1) OBSTACLE).mp hty
    exact ⟨k, t, f, ht, hf, hobs, hx, hy⟩

/-- A call of `moveTiles` leaves `game_over` as it was when no tile is on the player's
row. -/
theorem moveTiles_other_row (s : Game) (rnd : Nat)
    (hrow : ∀ t ∈ s.road, t.position.y ≠ s.player.y) :
    (moveTiles s rnd).game_over = s.game_over := by
  have harr : obstacleArrives s.player s.road = false := by
    rw [Bool.eq_false_iff]
    intro h
    obtain ⟨k, t, f, ht, _, _, _, hy⟩ := (obstacleArrives_iff s.player s.road).mp h
    exact hrow t (List.getElem?_mem ht) hy
  rw [moveTiles_game_over, harr]
  rfl

theorem moveTiles_positions (s : Game) (rnd : Nat) :
    (moveTiles s rnd).road.map Tile.position = s.road.map Tile.position := by
  rw [moveTiles_road, scroll_positions]

theorem playTicks_positions (ticks : List (Position × Nat)) :
    ∀ s : Game, (playTicks s ticks).road.map Tile.position = s.road.map Tile.position := by
  induction ticks with
  | nil => intro s; rfl
  | cons a rest ih =>
    intro s
    obtain ⟨p, rnd⟩ := a
    simp only [playTicks]
    rw [ih, moveTiles_positions]

/-- Every tile of a road with the positions `initRoad` gives is on the road row. -/
theorem initRoad_rows (s : Game) (mallocOk : Nat → Bool)
    (hall : ∀ i, i < SCREEN_WIDTH → mallocOk i = true) (l : List Tile)
    (hl : l.map Tile.position = (initRoad true mallocOk s).road.map Tile.position) :
    ∀ t ∈ l, t.position.y = SCREEN_HEIGHT - 3 := by
  intro t ht
  have hmem : t.position ∈ l.map Tile.position := List.mem_map_of_mem _ ht
  rw [hl, initRoad_road s mallocOk hall] at hmem
  simp only [List.map_cons, List.map_map, List.mem_cons, List.mem_map] at hmem
  rcases hmem with h | ⟨j, _, h⟩
  · rw [h]
  · rw [← h]
    rfl

/-- What a call of `movePlayer` with a jump key passes through: three held states one
row up with `air_time` 3, 2, 1, then the state it started from with `air_time = 0`. -/
theorem movePlayerSteps_jump (s : Game) (hj : s.input = 'w' ∨ s.input = ' ') :
    movePlayerSteps s =
      ([{ s with player := { x := s.player.x, y := s.player.y - 1 }, air_time := 3 },
        { s with player := { x := s.player.x, y := s.player.y - 1 }, air_time := 2 },
        { s with player := { x := s.player.x, y := s.player.y - 1 }, air_time := 1 }],
       { s with air_time := 0 }) := by
  have ha : ¬ s.input = 'a' := by rcases hj with h | h <;> simp [h]
  have hd : ¬ s.input = 'd' := by rcases hj with h | h <;> simp [h]
  have hq : ¬ s.input = 'q' := by rcases hj with h | h <;> simp [h]
  have hp : ({ x := s.player.x, y := s.player.y } : Position) = s.player := rfl
  simp [movePlayerSteps, jumpLoop, ha, hd, hq, hj, hp]

/-! ## Jumping over obstacles: claim C11 -/

/-- On a road whose tiles are all on the road row, every state held during a jump
from the road row has `air_time > 0`, the player one row up, the same road, and a tick
in it leaves `game_over` as it was. -/
theorem jump_hold_no_collision (g : Game)
    (hrows : ∀ t ∈ g.road, t.position.y = SCREEN_HEIGHT - 3) (x : Int) (c : Char)
    (hc : c = 'w' ∨ c = ' ') (h : Game)
    (hh : h ∈ (movePlayerSteps
      { g with player := { x := x, y := SCREEN_HEIGHT - 3 }, input := c }).1) (rnd : Nat) :
    0 < h.air_time ∧ h.player = { x := x, y := SCREEN_HEIGHT - 3 - 1 } ∧ h.road = g.road ∧
    (moveTiles h rnd).game_over = h.game_over := by
  rw [movePlayerSteps_jump _ hc] at hh
  have hne : ∀ t ∈ g.road, t.position.y ≠ SCREEN_HEIGHT - 3 - 1 := by
    intro t ht
    rw [hrows t ht]
    omega
  simp only [List.mem_cons, List.mem_singleton, List.not_mem_nil, or_false] at hh
  rcases hh with rfl | rfl | rfl
  · exact ⟨by simp, rfl, rfl, moveTiles_other_row _ rnd hne⟩
  · exact ⟨by simp, rfl, rfl, moveTiles_other_row _ rnd hne⟩
  · exact ⟨by simp, rfl, rfl, moveTiles_other_row _ rnd hne⟩

/-- Refutation of C11 as stated: there is no track reached from the road of
`initRoad` by ticks (with any player positions and values of `rand()`), player column,
jump key and state held during the jump (`air_time > 0`, the player one row above the
road row) in which a tick sets `game_over`. -/
theorem mid_jump_collision_counterexample :
    ¬ ∃ (ticks : List (Position × Nat)) (x : Int) (c : Char) (h : Game) (rnd : Nat),
      (c = 'w' ∨ c = ' ') ∧
      h ∈ (movePlayerSteps
        { playTicks (initRoad true (fun _ => true) easySetup) ticks with
          player := { x := x, y := SCREEN_HEIGHT - 3 }, input := c }).1 ∧
      0 < h.air_time ∧ h.game_over = 0 ∧ (moveTiles h rnd).game_over ≠ 0 := by
  rintro ⟨ticks, x, c, h, rnd, hc, hh, _, h0, hset⟩
  have hrows := initRoad_rows easySetup (fun _ => true) (fun _ _ => rfl)
    (playTicks (initRoad true (fun _ => true) easySetup) ticks).road
    (playTicks_positions ticks _)
  have hkeep := (jump_hold_no_collision _ hrows x c hc h hh rnd).2.2.2
  rw [hkeep] at hset
  exact hset h0

/-- C11, amended. A collision mid-jump is not possible: for every track reached from
the road of `initRoad` by ticks, every player column and every state held while a jump
is in progress (`air_time > 0`, the player's row one less than the road row), a tick of
`moveTiles` leaves `game_over` as it was, since every tile is on the road row. -/
theorem mid_jump_no_collision (s0 : Game) (mallocOk : Nat → Bool)
    (hall : ∀ i, i < SCREEN_WIDTH → mallocOk i = true) (ticks : List (Position × Nat))
    (x : Int) (c : Char) (h : Game) (rnd : Nat) (hc : c = 'w' ∨ c = ' ')
    (hh : h ∈ (movePlayerSteps
      { playTicks (initRoad true mallocOk s0) ticks with
        player := { x := x, y := SCREEN_HEIGHT - 3 }, input := c }).1) :
    0 < h.air_time ∧ h.player = { x := x, y := SCREEN_HEIGHT - 3 - 1 } ∧
    (moveTiles h rnd).game_over = h.game_over := by
  have hrows := initRoad_rows s0 mallocOk hall (playTicks (initRoad true mallocOk s0) ticks).road
    (playTicks_positions ticks _)
  obtain ⟨hair, hpl, _, hkeep⟩ := jump_hold_no_collision _ hrows x c hc h hh rnd
  exact ⟨hair, hpl, hkeep⟩

/-- Witness of C11, amended: in `jumpOverObstacle` the tick shifts an obstacle into the
tile at the player's column while the player is in the air, and `game_over` stays
clear. -/
theorem mid_jump_no_collision_witness :
    jumpOverObstacle ∈ (movePlayerSteps
      { playTicks (initRoad true (fun _ => true) easySetup) [({ x := 15, y := 7 }, 0)] with
        player := { x := 48, y := SCREEN_HEIGHT - 3 }, input := ' ' }).1 ∧
    typeAt (moveTiles jumpOverObstacle 5).road 49 = some OBSTACLE ∧
    positionAt (moveTiles jumpOverObstacle 5).road 49 = some { x := 48, y := 7 } ∧
    jumpOverObstacle.game_over = 0 ∧
    (0 < jumpOverObstacle.air_time ∧
      jumpOverObstacle.player = { x := 48, y := SCREEN_HEIGHT - 3 - 1 } ∧
      (moveTiles jumpOverObstacle 5).game_over = jumpOverObstacle.game_over) :=
  ⟨by decide, by decide, by decide, by decide,
    mid_jump_no_collision easySetup (fun _ => true) (fun _ _ => rfl) [({ x := 15, y := 7 }, 0)]
      48 ' ' jumpOverObstacle 5 (by decide) (by decide)⟩

/-! ## The prompt and the keys: claims C13, C14 and C15 -/

/-- A character that is not zero and has no case in the `switch` is skipped: the
prompt goes on with the next character in the same state. -/
theorem prompt_skip (s : Game) (d : Char) (cs : List Char)
    (hd : d ≠ Char.ofNat 0 ∧ d ∉ promptKeys) :
    drawInstructionGameScreen s (d :: cs) = drawInstructionGameScreen s cs := by
  obtain ⟨h0, hk⟩ := hd
  simp only [promptKeys, List.mem_cons, List.mem_singleton, List.not_mem_nil, or_false,
    not_or] at hk
  obtain ⟨h1, h2, h3, h4, h5, h6, h7, h8⟩ := hk
  simp [drawInstructionGameScreen, h0, h1, h2, h3, h4, h5, h6, h7, h8]

theorem prompt_skip_all (s : Game) (skipped cs : List Char)
    (hskip : ∀ d ∈ skipped, d ≠ Char.ofNat 0 ∧ d ∉ promptKeys) :
    drawInstructionGameScreen s (skipped ++ cs) = drawInstructionGameScreen s cs := by
  induction skipped with
  | nil => rfl
  | cons d rest ih =>
    rw [List.cons_append, prompt_skip s d _ (hskip d (List.mem_cons_self _ _))]
    exact ih (fun e he => hskip e (List.mem_cons_of_mem _ he))

theorem prompt_easy (s : Game) :
    drawInstructionGameScreen s ['e'] =
      some { s with game_speed := 300000, score_for_win := 100 } := by
  simp [drawInstructionGameScreen]

theorem prompt_normal (s : Game) :
    drawInstructionGameScreen s ['n'] =
      some { s with game_speed := 150000, score_for_win := 200 } := by
  simp [drawInstructionGameScreen]

theorem prompt_hard (s : Game) :
    drawInstructionGameScreen s ['h'] =
      some { s with game_speed := 75000, score_for_win := 400 } := by
  simp [drawInstructionGameScreen]

/-- C13. Difficulty presets: after any characters that are skipped (not zero, no case
in the `switch`), which change no state, the first recognised character decides:
`e`/`E` gives `game_speed = 300000` and `score_for_win = 100`, `n`/`N` gives 150000 and
200, `h`/`H` gives 75000 and 400, `q`/`Q` sets `quit = 1` and leaves speed and threshold
as they were; from Easy to Normal and from Normal to Hard the interval halves and the
threshold doubles. -/
theorem difficulty_presets (s : Game) (skipped rest : List Char) (c : Char)
    (hskip : ∀ d ∈ skipped, d ≠ Char.ofNat 0 ∧ d ∉ promptKeys) :
    (c = 'e' ∨ c = 'E' → drawInstructionGameScreen s (skipped ++ c :: rest) =
      some { s with game_speed := 300000, score_for_win := 100 }) ∧
    (c = 'n' ∨ c = 'N' → drawInstructionGameScreen s (skipped ++ c :: rest) =
      some { s with game_speed := 150000, score_for_win := 200 }) ∧
    (c = 'h' ∨ c = 'H' → drawInstructionGameScreen s (skipped ++ c :: rest) =
      some { s with game_speed := 75000, score_for_win := 400 }) ∧
    (c = 'q' ∨ c = 'Q' → drawInstructionGameScreen s (skipped ++ c :: rest) =
      some { s with quit := 1 }) ∧
    (drawInstructionGameScreen s (skipped ++ rest) = drawInstructionGameScreen s rest) ∧
    ((drawInstructionGameScreen s ['n']).map (fun g => (2 * g.game_speed, g.score_for_win)) =
      (drawInstructionGameScreen s ['e']).map (fun g => (g.game_speed, 2 * g.score_for_win))) ∧
    ((drawInstructionGameScreen s ['h']).map (fun g => (2 * g.game_speed, g.score_for_win)) =
      (drawInstructionGameScreen s ['n']).map (fun g => (g.game_speed, 2 * g.score_for_win))) := by
  refine ⟨?_, ?_, ?_, ?_, prompt_skip_all s skipped rest hskip, ?_, ?_⟩
  · intro hc
    rw [prompt_skip_all s skipped _ hskip]
    rcases hc with rfl | rfl <;> simp [drawInstructionGameScreen]
  · intro hc
    rw [prompt_skip_all s skipped _ hskip]
    rcases hc with rfl | rfl <;> simp [drawInstructionGameScreen]
  · intro hc
    rw [prompt_skip_all s skipped _ hskip]
    rcases hc with rfl | rfl <;> simp [drawInstructionGameScreen]
  · intro hc
    rw [prompt_skip_all s skipped _ hskip]
    rcases hc with rfl | rfl <;> simp [drawInstructionGameScreen]
  · rw [prompt_normal, prompt_easy]
    simp only [Option.map_some']
  · rw [prompt_hard, prompt_normal]
    simp only [Option.map_some']

/-- Witness of C13: the prompt skips `x`, a blank and `7`, then `N` selects Normal. -/
theorem difficulty_presets_witness :
    (∀ d ∈ ['x', ' ', '7'], d ≠ Char.ofNat 0 ∧ d ∉ promptKeys) ∧
    drawInstructionGameScreen initialGame (['x', ' ', '7'] ++ 'N' :: ['e', 'q']) =
      some { initialGame with game_speed := 150000, score_for_win := 200 } :=
  ⟨by decide,
    (difficulty_presets initialGame ['x', ' ', '7'] ['e', 'q'] 'N' (by decide)).2.1
      (Or.inr rfl)⟩

/-- C14. Jump: for every player position `(x, y)`, `movePlayer` with input `w` or
blank passes through exactly three sleeps, in states that differ from the state of the
call only in the row, `y - 1`, and in `air_time`, which counts 3, 2, 1 (so each sleep
lasts the `game_speed` of the call), and returns in the state of the call with
`air_time = 0`: position `(x, y)` again, column, flags and score unchanged. -/
theorem movePlayer_jump (s : Game) (hj : s.input = 'w' ∨ s.input = ' ') :
    (movePlayerSteps s).1 =
      [{ s with player := { x := s.player.x, y := s.player.y - 1 }, air_time := 3 },
       { s with player := { x := s.player.x, y := s.player.y - 1 }, air_time := 2 },
       { s with player := { x := s.player.x, y := s.player.y - 1 }, air_time := 1 }] ∧
    movePlayer s = { s with air_time := 0 } ∧
    (movePlayer s).player = s.player ∧ (movePlayer s).air_time = 0 ∧
    (movePlayer s).game_over = s.game_over ∧ (movePlayer s).game_won = s.game_won ∧
    (movePlayer s).quit = s.quit ∧ (movePlayer s).error = s.error ∧
    (movePlayer s).score = s.score := by
  have h := movePlayerSteps_jump s hj
  unfold movePlayer
  rw [h]
  exact ⟨rfl, rfl, rfl, rfl, rfl, rfl, rfl, rfl, rfl⟩

/-- Witness of C14 on `beforeJump`. -/
theorem movePlayer_jump_witness :
    (beforeJump.input = 'w' ∨ beforeJump.input = ' ') ∧
    ((movePlayerSteps beforeJump).1.map (fun g => (g.player, g.air_time)) =
      [({ x := 20, y := 6 }, 3), ({ x := 20, y := 6 }, 2), ({ x := 20, y := 6 }, 1)]) ∧
    (movePlayer beforeJump).player = { x := 20, y := 7 } ∧
    movePlayer beforeJump = { beforeJump with air_time := 0 } :=
  ⟨by decide, by decide, by decide, (movePlayer_jump beforeJump (by decide)).2.1⟩

/-- Once `quit` is set the loop of `main` runs no tick. -/
theorem mainLoop_quit (s : Game) (rnds : List Nat) (hq : s.quit ≠ 0) : mainLoop s rnds = s :=
  mainLoop_stop s rnds (fun h => hq h.1)

/-- C15. Quit: `movePlayer` with input `q` sets `quit` to 1 and changes nothing else
(no sleep, and position, `game_over`, `game_won`, `error`, score and road as before);
with `quit` set the condition of the loop of `main` is false, so the loop runs no
further tick on any values of `rand()` and `game_over` and `game_won` stay as they
were. -/
theorem movePlayer_quit (s : Game) (hq : s.input = 'q') :
    movePlayerSteps s = ([], { s with quit := 1 }) ∧
    movePlayer s = { s with quit := 1 } ∧
    ∀ rnds : List Nat, mainLoop (movePlayer s) rnds = movePlayer s ∧
      (mainLoop (movePlayer s) rnds).game_over = s.game_over ∧
      (mainLoop (movePlayer s) rnds).game_won = s.game_won := by
  have hsteps : movePlayerSteps s = ([], { s with quit := 1 }) := by
    simp [movePlayerSteps, hq]
  have hmove : movePlayer s = { s with quit := 1 } := by
    unfold movePlayer
    rw [hsteps]
  refine ⟨hsteps, hmove, ?_⟩
  intro rnds
  have hstop : mainLoop (movePlayer s) rnds = movePlayer s :=
    mainLoop_quit _ rnds (by rw [hmove]; simp)
  rw [hstop, hmove]
  exact ⟨rfl, rfl, rfl⟩

/-- Witness of C15 on `beforeQuit`, with three ticks offered to the loop of `main`. -/
theorem movePlayer_quit_witness :
    beforeQuit.input = 'q' ∧ beforeQuit.quit = 0 ∧ (movePlayer beforeQuit).quit = 1 ∧
    mainLoop (movePlayer beforeQuit) [0, 1, 2] = { beforeQuit with quit := 1 } ∧
    movePlayer beforeQuit = { beforeQuit with quit := 1 } :=
  ⟨by decide, by decide, by decide, by decide, (movePlayer_quit beforeQuit (by decide)).2.1⟩

/-! ## Keys after the end of the game: claim C12 -/

/-- C12, evaluation of the code at the failing input. From `almostWon` (all four flags
clear) one iteration of the loop of `main` with `rand()` returning 5 sets `game_won`
and the loop stops; `readInput`, blocked in `getchar` meanwhile, then receives `q`: its
loop condition tests `quit`, `error` and `game_over` but not `game_won`, so `movePlayer`
runs and sets `quit`, and only the `break` test, which does name `game_won`, ends the
loop. Two flags are set. After a lost game (`obstacleAhead`) the same key is not
applied: the loop condition fails on `game_over` and `quit` stays clear. -/
theorem readInput_quit_after_win :
    almostWon.game_over = 0 ∧ almostWon.game_won = 0 ∧ almostWon.quit = 0 ∧
    almostWon.error = 0 ∧
    (mainLoop almostWon [5, 5, 5]).game_won = 1 ∧ (mainLoop almostWon [5, 5, 5]).quit = 0 ∧
    (mainLoop almostWon [5, 5, 5]).score = 100 ∧
    (readInput (mainLoop almostWon [5, 5, 5]) ['q', 'a']).1.game_won = 1 ∧
    (readInput (mainLoop almostWon [5, 5, 5]) ['q', 'a']).1.quit = 1 ∧
    (readInput (mainLoop almostWon [5, 5, 5]) ['q', 'a']).2 = true ∧
    (mainLoop obstacleAhead [5, 5, 5]).game_over = 1 ∧
    (readInput (mainLoop obstacleAhead [5, 5, 5]) ['q', 'a']).1.quit = 0 ∧
    (readInput (mainLoop obstacleAhead [5, 5, 5]) ['q', 'a']).2 = true := by
  decide

/-! ## The new tail tile: claim C16 -/

theorem road_ne_obstacle : ROAD ≠ OBSTACLE := by decide

/-- The type of the tail tile after a call that reaches the tail, from its type
before. -/
theorem moveTiles_tail_type (s : Game) (rnd width : Nat) (hlen : s.road.length = width + 1)
    (harr : obstacleArrives s.player s.road = false) :
    typeAt (moveTiles s rnd).road width =
      (typeAt s.road width).map
        (fun c => if c ≠ OBSTACLE then (if rnd % 10 < 2 then OBSTACLE else ROAD) else ROAD) := by
  have hnc : (scroll s.player rnd s.road).2 = false := by rw [scroll_collided]; exact harr
  have ht := scroll_tail s.player rnd s.road hnc width hlen.symm
  rw [moveTiles_road]
  unfold typeAt
  rw [ht]
  cases s.road[width]? with
  | none => rfl
  | some t => rfl

/-- C16. Obstacle die: on a road of `width + 1` tiles in which neither the tail tile nor
the tile before it is an obstacle before the call, a call that reaches the tail (no
collision) writes into the tail tile `OBSTACLE` if `rand() % 10` is 0 or 1 and `ROAD` if
it is 2 to 9; of the ten die values exactly 0 and 1 give an obstacle. -/
theorem moveTiles_tail_die (s : Game) (rnd width : Nat) (t : Tile)
    (hlen : s.road.length = width + 1) (htile : s.road[width]? = some t)
    (htail : t.type ≠ OBSTACLE)
    (_hprev : 0 < width → typeAt s.road (width - 1) ≠ some OBSTACLE)
    (h0 : s.game_over = 0) (hno : (moveTiles s rnd).game_over = 0) :
    typeAt (moveTiles s rnd).road width = some (if rnd % 10 < 2 then OBSTACLE else ROAD) ∧
    (List.range 10).filter
      (fun r => decide (typeAt (moveTiles s r).road width = some OBSTACLE)) = [0, 1] := by
  have harr : obstacleArrives s.player s.road = false :=
    (moveTiles_no_collision s rnd h0).mp hno
  have hall : ∀ r, typeAt (moveTiles s r).road width =
      some (if r % 10 < 2 then OBSTACLE else ROAD) := by
    intro r
    rw [moveTiles_tail_type s r width hlen harr]
    simp [typeAt, htile, htail]
  refine ⟨hall rnd, ?_⟩
  simp only [hall]
  decide

/-- Witness of C16 on the all-road start track, with `rand()` returning 11 (die value
1). -/
theorem moveTiles_tail_die_witness :
    easyStart.road.length = 50 + 1 ∧
    easyStart.road[50]? = some { type := ROAD, position := { x := 49, y := 7 } } ∧
    (0 < 50 → typeAt easyStart.road (50 - 1) ≠ some OBSTACLE) ∧
    easyStart.game_over = 0 ∧ (moveTiles easyStart 11).game_over = 0 ∧
    (typeAt (moveTiles easyStart 11).road 50 = some (if 11 % 10 < 2 then OBSTACLE else ROAD) ∧
      (List.range 10).filter
        (fun r => decide (typeAt (moveTiles easyStart r).road 50 = some OBSTACLE)) = [0, 1]) :=
  ⟨by decide, by decide, by decide, by decide, by decide,
    moveTiles_tail_die easyStart 11 50 { type := ROAD, position := { x := 49, y := 7 } }
      (by decide) (by decide) (by decide) (by decide) (by decide) (by decide)⟩

/-! ## Where a collision stops the scroll: claims C17 and C18 -/

theorem positionAt_zero_cons (t : Tile) (tl : List Tile) (p : Position) :
    positionAt (t :: tl) 0 = some p ↔ t.position.x = p.x ∧ t.position.y = p.y := by
  rw [positionAt_eq_some]
  constructor
  · rintro ⟨a, ha, hx, hy⟩
    simp at ha
    subst ha
    exact ⟨hx, hy⟩
  · rintro ⟨hx, hy⟩
    exact ⟨t, by simp, hx, hy⟩

/-- When tile `k` is the first tile at `p` whose successor is an obstacle, the loop
stops there: tiles up to `k` have the type of their successor, tiles behind `k` are
as they were. -/
theorem scroll_first_hit (p : Position) (rnd : Nat) (l : List Tile) :
    ∀ k : Nat, positionAt l k = some p → typeAt l (k + 1) = some OBSTACLE →
      (∀ j, j < k → ¬ (positionAt l j = some p ∧ typeAt l (j + 1) = some OBSTACLE)) →
      (∀ i, i ≤ k → typeAt (scroll p rnd l).1 i = typeAt l (i + 1)) ∧
      (∀ i, k < i → (scroll p rnd l).1[i]? = l[i]?) := by
  induction l with
  | nil =>
    intro k hpos _ _
    simp [positionAt] at hpos
  | cons t tl ih =>
    intro k hpos hobs hfirst
    cases tl with
    | nil => simp [typeAt] at hobs
    | cons f rest =>
      by_cases hhit : f.type = OBSTACLE ∧ t.position.x = p.x ∧ t.position.y = p.y
      · have hk : k = 0 := by
          by_contra hne
          apply hfirst 0 (Nat.pos_of_ne_zero hne)
          exact ⟨(positionAt_zero_cons t _ p).mpr hhit.2, by simp [typeAt, hhit.1]⟩
        subst hk
        constructor
        · intro i hi
          have hi0 : i = 0 := by omega
          subst hi0
          simp [scroll, hhit, typeAt]
        · intro i hi
          obtain ⟨m, rfl⟩ : ∃ m, i = m + 1 := ⟨i - 1, by omega⟩
          simp [scroll, hhit]
      · obtain ⟨m, rfl⟩ : ∃ m, k = m + 1 := by
          cases k with
          | zero =>
            exfalso
            apply hhit
            have h1 := (positionAt_zero_cons t _ p).mp hpos
            have h2 : f.type = OBSTACLE := by simpa [typeAt] using hobs
            exact ⟨h2, h1⟩
          | succ m => exact ⟨m, rfl⟩
        have hrec := ih m (by simpa [positionAt] using hpos) (by simpa [typeAt] using hobs)
          (fun j hj hcon => hfirst (j + 1) (by omega)
            ⟨by simpa [positionAt] using hcon.1, by simpa [typeAt] using hcon.2⟩)
        obtain ⟨h1, h2⟩ := hrec
        constructor
        · intro i hi
          cases i with
          | zero => simp [scroll, hhit, typeAt]
          | succ n =>
            have := h1 n (by omega)
            simpa [scroll, hhit, typeAt] using this
        · intro i hi
          obtain ⟨n, rfl⟩ : ∃ n, i = n + 1 := ⟨i - 1, by omega⟩
          have := h2 n (by omega)
          simpa [scroll, hhit] using this

/-- C17. Collision short-circuit: when tile `k` is where `moveTiles` sets `game_over`
(the first tile at the player's position whose successor is an obstacle), the call
returns at once: tiles 0 to `k` hold the old types of tiles 1 to `k + 1`, every tile
behind `k` keeps its old type (the tail included), `score` is unchanged and `game_won`
is as it was. -/
theorem moveTiles_short_circuit (s : Game) (rnd k : Nat)
    (hpos : positionAt s.road k = some s.player)
    (hobs : typeAt s.road (k + 1) = some OBSTACLE)
    (hfirst : ∀ j, j < k →
      ¬ (positionAt s.road j = some s.player ∧ typeAt s.road (j + 1) = some OBSTACLE)) :
    (moveTiles s rnd).game_over = 1 ∧
    (∀ i, i ≤ k → typeAt (moveTiles s rnd).road i = typeAt s.road (i + 1)) ∧
    (∀ i, k < i → (moveTiles s rnd).road[i]? = s.road[i]?) ∧
    (moveTiles s rnd).score = s.score ∧ (moveTiles s rnd).game_won = s.game_won := by
  have harr : obstacleArrives s.player s.road = true :=
    (obstacleArrives_iff_at s.player s.road).mpr ⟨k, hpos, hobs⟩
  obtain ⟨h1, h2⟩ := scroll_first_hit s.player rnd s.road k hpos hobs hfirst
  refine ⟨?_, ?_, ?_, ?_, ?_⟩
  · rw [moveTiles_game_over, harr]; rfl
  · rw [moveTiles_road]; exact h1
  · rw [moveTiles_road]; exact h2
  · rw [moveTiles_score]; simp [harr]
  · rw [moveTiles_game_won]; simp [harr]

/-- Witness of C17 on `obstacleAheadAt99`: the collision is at tile 16; tile 16 has
received the obstacle of tile 17, tile 17 still holds it, the tail is untouched, the
score stays 99 and the game is not won. -/
theorem moveTiles_short_circuit_witness :
    positionAt obstacleAheadAt99.road 16 = some obstacleAheadAt99.player ∧
    typeAt obstacleAheadAt99.road (16 + 1) = some OBSTACLE ∧
    typeAt (moveTiles obstacleAheadAt99 0).road 16 = some OBSTACLE ∧
    typeAt (moveTiles obstacleAheadAt99 0).road 17 = some OBSTACLE ∧
    typeAt (moveTiles obstacleAheadAt99 0).road 50 = some ROAD ∧
    ((moveTiles obstacleAheadAt99 0).game_over = 1 ∧
      (∀ i, i ≤ 16 →
        typeAt (moveTiles obstacleAheadAt99 0).road i = typeAt obstacleAheadAt99.road (i + 1)) ∧
      (∀ i, 16 < i → (moveTiles obstacleAheadAt99 0).road[i]? = obstacleAheadAt99.road[i]?) ∧
      (moveTiles obstacleAheadAt99 0).score = obstacleAheadAt99.score ∧
      (moveTiles obstacleAheadAt99 0).game_won = obstacleAheadAt99.game_won) :=
  ⟨by decide, by decide, by decide, by decide, by decide,
    moveTiles_short_circuit obstacleAheadAt99 0 16 (by decide) (by decide) (by decide)⟩

/-- C18. Exact collision condition: for every track, player position and value of
`rand()`, a call of `moveTiles` from a state with `game_over` clear sets `game_over` (to
1) if and only if some tile `k` that is not the tail is at the player's position and
the type it receives, the old type of tile `k + 1`, is `OBSTACLE`; the tail tile is
never looked at. -/
theorem moveTiles_collision_iff (s : Game) (rnd : Nat) (h0 : s.game_over = 0) :
    ((moveTiles s rnd).game_over ≠ 0 ↔
      ∃ k, k + 1 < s.road.length ∧ positionAt s.road k = some s.player ∧
        typeAt s.road (k + 1) = some OBSTACLE) ∧
    ((moveTiles s rnd).game_over ≠ 0 → (moveTiles s rnd).game_over = 1) := by
  have hgo := moveTiles_game_over s rnd
  have hiff := obstacleArrives_iff_at s.player s.road
  constructor
  · constructor
    · intro hset
      have harr : obstacleArrives s.player s.road = true := by
        by_contra hcon
        rw [hgo] at hset
        simp [hcon, h0] at hset
      obtain ⟨k, hp, ht⟩ := hiff.mp harr
      refine ⟨k, ?_, hp, ht⟩
      obtain ⟨f, hf, _⟩ := (typeAt_eq_some s.road (k + 1) OBSTACLE).mp ht
      exact (List.getElem?_eq_some.mp hf).1
    · rintro ⟨k, _, hp, ht⟩
      have harr := hiff.mpr ⟨k, hp, ht⟩
      rw [hgo, harr]
      simp
  · intro hset
    by_cases harr : obstacleArrives s.player s.road = true
    · rw [hgo, harr]; rfl
    · rw [hgo] at hset
      simp [harr, h0] at hset

/-- Witness of C18: in `obstacleAhead` tile 16 is under the player and tile 17 is an
obstacle, so the call sets `game_over`; in `playerAtTailAt99` only the tail tile is at
the player's column and the call leaves `game_over` clear although the new tail is an
obstacle. -/
theorem moveTiles_collision_iff_witness :
    obstacleAhead.game_over = 0 ∧ (moveTiles obstacleAhead 3).game_over = 1 ∧
    (moveTiles playerAtTailAt99 0).game_over = 0 ∧
    typeAt (moveTiles playerAtTailAt99 0).road 50 = some OBSTACLE ∧
    (((moveTiles obstacleAhead 3).game_over ≠ 0 ↔
      ∃ k, k + 1 < obstacleAhead.road.length ∧
        positionAt obstacleAhead.road k = some obstacleAhead.player ∧
        typeAt obstacleAhead.road (k + 1) = some OBSTACLE) ∧
    ((moveTiles obstacleAhead 3).game_over ≠ 0 → (moveTiles obstacleAhead 3).game_over = 1)) :=
  ⟨by decide, by decide, by decide, by decide,
    moveTiles_collision_iff obstacleAhead 3 (by decide)⟩

/-! ## Invariants of the track in play: claims C19 and C20 -/

/-- A call that reaches the tail keeps the road free of neighbouring obstacles. -/
theorem scroll_noAdjacent (p : Position) (rnd : Nat) (l : List Tile)
    (hnc : (scroll p rnd l).2 = false) (hl : noAdjacentObstacles l) :
    noAdjacentObstacles (scroll p rnd l).1 := by
  intro i hboth
  obtain ⟨ha, hb⟩ := hboth
  have hlen := scroll_length p rnd l
  have hi : i + 1 < l.length := by
    obtain ⟨f, hf, _⟩ := (typeAt_eq_some _ (i + 1) OBSTACLE).mp hb
    have := (List.getElem?_eq_some.mp hf).1
    omega
  rw [scroll_types p rnd l hnc i hi] at ha
  by_cases hlast : i + 2 < l.length
  · rw [scroll_types p rnd l hnc (i + 1) hlast] at hb
    exact hl (i + 1) ⟨ha, hb⟩
  · have hend : i + 1 + 1 = l.length := by omega
    have ht := scroll_tail p rnd l hnc (i + 1) hend
    obtain ⟨t, htile, hty⟩ := (typeAt_eq_some l (i + 1) OBSTACLE).mp ha
    unfold typeAt at hb
    rw [ht, htile] at hb
    simp [tailTile, hty] at hb
    exact road_ne_obstacle hb

theorem moveTiles_game_over_clear (s : Game) (rnd : Nat)
    (h : (moveTiles s rnd).game_over = 0) :
    s.game_over = 0 ∧ obstacleArrives s.player s.road = false := by
  rw [moveTiles_game_over] at h
  by_cases harr : obstacleArrives s.player s.road = true
  · simp [harr] at h
  · simp [harr] at h
    exact ⟨h, by simpa using harr⟩

theorem playTicks_game_over_clear (ticks : List (Position × Nat)) :
    ∀ s : Game, (playTicks s ticks).game_over = 0 → s.game_over = 0 := by
  induction ticks with
  | nil => intro s h; exact h
  | cons a rest ih =>
    intro s h
    obtain ⟨p, rnd⟩ := a
    exact (moveTiles_game_over_clear _ rnd (ih _ h)).1

/-- Ticks none of which ends in a collision keep the road free of neighbouring
obstacles. -/
theorem playTicks_noAdjacent (ticks : List (Position × Nat)) :
    ∀ s : Game, noAdjacentObstacles s.road → (playTicks s ticks).game_over = 0 →
      noAdjacentObstacles (playTicks s ticks).road := by
  induction ticks with
  | nil => intro s hs _; exact hs
  | cons a rest ih =>
    intro s hs hno
    obtain ⟨p, rnd⟩ := a
    have hstep := playTicks_game_over_clear rest _ hno
    have harr := (moveTiles_game_over_clear _ rnd hstep).2
    apply ih _ _ hno
    rw [moveTiles_road]
    apply scroll_noAdjacent
    · rw [scroll_collided]; exact harr
    · exact hs

theorem initRoad_noAdjacent (s : Game) (mallocOk : Nat → Bool)
    (hall : ∀ i, i < SCREEN_WIDTH → mallocOk i = true) :
    noAdjacentObstacles (initRoad true mallocOk s).road := by
  intro i hboth
  obtain ⟨t, ht, hty⟩ := (typeAt_eq_some _ i OBSTACLE).mp hboth.1
  have hmem := List.getElem?_mem ht
  rw [initRoad_road s mallocOk hall] at hmem
  simp only [List.mem_cons, List.mem_map] at hmem
  rcases hmem with h | ⟨j, _, h⟩
  · rw [h] at hty
    exact road_ne_obstacle hty
  · rw [← h] at hty
    exact road_ne_obstacle hty

/-- C19. Global no-adjacent-obstacles invariant: starting from the all-road track
`initRoad` builds, after any number of calls of `moveTiles`, with any values of `rand()`
and any player positions, none of which set `game_over` (it is clear at the end), no
two neighbouring tiles of the track are both obstacles. -/
theorem no_adjacent_obstacles (s0 : Game) (mallocOk : Nat → Bool)
    (hall : ∀ i, i < SCREEN_WIDTH → mallocOk i = true) (ticks : List (Position × Nat))
    (hno : (playTicks (initRoad true mallocOk s0) ticks).game_over = 0) (i : Nat) :
    ¬ (typeAt (playTicks (initRoad true mallocOk s0) ticks).road i = some OBSTACLE ∧
       typeAt (playTicks (initRoad true mallocOk s0) ticks).road (i + 1) = some OBSTACLE) :=
  playTicks_noAdjacent ticks _ (initRoad_noAdjacent s0 mallocOk hall) hno i

/-- Witness of C19 on `threeTicks`: obstacles were created in the first and the third
tick, the tile between them is road. -/
theorem no_adjacent_obstacles_witness :
    threeTicks.game_over = 0 ∧
    typeAt threeTicks.road 48 = some OBSTACLE ∧ typeAt threeTicks.road 49 = some ROAD ∧
    typeAt threeTicks.road 50 = some OBSTACLE ∧
    ¬ (typeAt threeTicks.road 49 = some OBSTACLE ∧
       typeAt threeTicks.road (49 + 1) = some OBSTACLE) :=
  ⟨by decide, by decide, by decide, by decide,
    no_adjacent_obstacles easySetup (fun _ => true) (fun _ _ => rfl)
      [({ x := 15, y := 7 }, 0), ({ x := 14, y := 7 }, 0), ({ x := 16, y := 7 }, 1)]
      (by decide) 49⟩

/-- Position of tile `k` of the road `initRoad` builds: there is none behind index
`SCREEN_WIDTH`, tile 0 is at column 0 and tile `k > 0` at column `k - 1`, all on the
road row. -/
theorem initRoad_positionAt (s : Game) (mallocOk : Nat → Bool)
    (hall : ∀ i, i < SCREEN_WIDTH → mallocOk i = true) (k : Nat) (p : Position)
    (h : positionAt (initRoad true mallocOk s).road k = some p) :
    k ≤ SCREEN_WIDTH ∧ p.x = ((k - 1 : Nat) : Int) ∧ p.y = SCREEN_HEIGHT - 3 := by
  obtain ⟨t, ht, hx, hy⟩ := (positionAt_eq_some _ k p).mp h
  rw [initRoad_road s mallocOk hall] at ht
  cases k with
  | zero =>
    simp at ht
    subst ht
    exact ⟨Nat.zero_le _, by rw [← hx]; rfl, by rw [← hy]⟩
  | succ j =>
    simp only [List.getElem?_cons_succ, List.getElem?_map] at ht
    have hlt : j < SCREEN_WIDTH := by
      by_contra hcon
      have hnone : (List.range' 0 SCREEN_WIDTH)[j]? = none := by
        apply List.getElem?_eq_none
        simp
        omega
      simp [hnone] at ht
    rw [List.getElem?_range' 0 1 hlt] at ht
    simp at ht
    subst ht
    refine ⟨by omega, ?_, by rw [← hy]; rfl⟩
    rw [← hx]
    simp [roadTile]

/-- C20. Collision-free columns: on a track with the tile positions `initRoad` gives,
whatever the tile types, the value of `rand()` and the player's row, a call of
`moveTiles` with the player at column `SCREEN_WIDTH - 1` or `SCREEN_WIDTH` does not set
`game_over`: it leaves it as it was. (Both columns are reached from the start column by
inputs `d`: see the witness.) -/
theorem collision_free_columns (s0 : Game) (mallocOk : Nat → Bool)
    (hall : ∀ i, i < SCREEN_WIDTH → mallocOk i = true) (s : Game) (rnd : Nat)
    (hpos : s.road.map Tile.position = (initRoad true mallocOk s0).road.map Tile.position)
    (hcol : s.player.x = (SCREEN_WIDTH : Int) - 1 ∨ s.player.x = (SCREEN_WIDTH : Int)) :
    (moveTiles s rnd).game_over = s.game_over := by
  have harr : obstacleArrives s.player s.road = false := by
    rw [Bool.eq_false_iff]
    intro h
    obtain ⟨k, hp, hty⟩ := (obstacleArrives_iff_at s.player s.road).mp h
    have hk : k + 1 < s.road.length := by
      obtain ⟨f, hf, _⟩ := (typeAt_eq_some s.road (k + 1) OBSTACLE).mp hty
      exact (List.getElem?_eq_some.mp hf).1
    have hlen : s.road.length = (initRoad true mallocOk s0).road.length := by
      have := congrArg List.length hpos
      simpa using this
    have hp2 : positionAt (initRoad true mallocOk s0).road k = some s.player := by
      have h1 : positionAt s.road k = (s.road.map Tile.position)[k]? := by
        simp [positionAt]
      have h2 : positionAt (initRoad true mallocOk s0).road k =
          ((initRoad true mallocOk s0).road.map Tile.position)[k]? := by
        simp [positionAt]
      rw [h2, ← hpos, ← h1]
      exact hp
    obtain ⟨_, hx, _⟩ := initRoad_positionAt s0 mallocOk hall k s.player hp2
    have hroad : (initRoad true mallocOk s0).road.length = SCREEN_WIDTH + 1 := by
      rw [initRoad_road s0 mallocOk hall]
      simp
    have hw : SCREEN_WIDTH = 50 := rfl
    rw [hlen, hroad] at hk
    rcases hcol with hc | hc <;> omega
  rw [moveTiles_game_over, harr]
  rfl

/-- Witness of C20 on `allObstacles`: every tile is an obstacle, the player is at
column 49, reached from the start column by 34 inputs `d` (and column 50 by 35), and
the tick leaves `game_over` clear. -/
theorem collision_free_columns_witness :
    (∃ t ∈ applyInputs (placePlayer initialGame) (List.replicate 34 'd'),
      t.player = allObstacles.player) ∧
    (∃ t ∈ applyInputs (placePlayer initialGame) (List.replicate 35 'd'),
      t.player.x = (SCREEN_WIDTH : Int)) ∧
    typeAt allObstacles.road 49 = some OBSTACLE ∧ typeAt allObstacles.road 50 = some OBSTACLE ∧
    allObstacles.game_over = 0 ∧
    (moveTiles allObstacles 0).game_over = allObstacles.game_over :=
  ⟨by decide, by decide, by decide, by decide, by decide,
    collision_free_columns initialGame (fun _ => true) (fun _ _ => rfl) allObstacles 0
      (by decide) (by decide)⟩

end JumpingJack
